/-
Verification of the NativeEngine core of the Android-Game-Test repository
(src/app/src/main/cpp/native_engine.cpp and native_engine.hpp).

Shallow embedding notes:

* Machine floats are modelled by the type F below: finite values are exact
  rationals (rounding of finite arithmetic is abstracted away), while the
  IEEE-754 special values +inf, -inf and NaN and the divide-by-zero rules
  are modelled exactly.  The int-to-float cast of a C++ int n is modelled
  as the exact rational n (in particular static_cast<float>(0) is +0.0).
* Platform calls (EGL, GLES, the Android input buffer) are modelled as an
  environment record of their results plus a trace of the calls issued.
* Pointer ids are int32_t, modelled as Int; motion-event action words are
  non-negative int32_t bit patterns, modelled as Nat so that the mask and
  shift arithmetic of the source is literal.
* Fields of the NativeEngine class that only hold render geometry
  (orig_x, orig_y, g_vertex_buffer_data, vs, fs, program, vao, vbo) and
  the function-local statics (rotate_by, errorsPrinted) are omitted: no
  verified property mentions them.
-/
import Mathlib

/-- Machine float: exact rationals for finite values plus the IEEE special
values.  Rounding of finite arithmetic is abstracted (finite operations are
exact); the special-value and divide-by-zero rules are IEEE-faithful. -/
inductive F
  | fin (q : ℚ)
  | inf
  | ninf
  | nan
deriving DecidableEq, Repr

/-- IEEE float subtraction on the model (finite case exact). -/
def fsub : F → F → F
  | F.fin a, F.fin b => F.fin (a - b)
  | F.fin _, F.inf => F.ninf
  | F.fin _, F.ninf => F.inf
  | F.inf, F.fin _ => F.inf
  | F.ninf, F.fin _ => F.ninf
  | F.inf, F.ninf => F.inf
  | F.ninf, F.inf => F.ninf
  | _, _ => F.nan

/-- IEEE float division on the model (finite/nonzero case exact; the
divide-by-zero rules x/+0 = +inf (x>0), -inf (x<0), NaN (x=0) are exact;
the divisors produced by the source are int casts, hence +0, so the signed
zero distinction is not needed). -/
def fdiv : F → F → F
  | F.fin a, F.fin b =>
      if b = 0 then (if 0 < a then F.inf else if a < 0 then F.ninf else F.nan)
      else F.fin (a / b)
  | F.fin _, F.inf => F.fin 0
  | F.fin _, F.ninf => F.fin 0
  | F.inf, F.fin _ => F.inf
  | F.ninf, F.fin _ => F.ninf
  | _, _ => F.nan

/-- static_cast<float>(int) — exact in the model. -/
def intToF (n : ℤ) : F := F.fin (n : ℚ)

/-- Is the float value a real number in the closed interval [0,1]? -/
def inUnit : F → Bool
  | F.fin q => decide (0 ≤ q ∧ q ≤ 1)
  | _ => false

/-- struct Position { float x, y; } from native_engine.hpp. -/
structure Position where
  x : F
  y : F
deriving DecidableEq, Repr

/-- TouchScreenEvent::Type from native_engine.hpp. -/
inductive TSEType
  | Up
  | Down
  | Move
deriving DecidableEq, Repr

/-- struct TouchScreenEvent from native_engine.hpp.  The motion_event
pointer member is omitted (it is only passed through to the logging
callback). -/
structure TouchScreenEvent where
  type : TSEType
  id : ℤ
  min : Position
  max : Position
  pos : Position
  norm_pos : Position
  move_ndelta : Position
  pointer_index : ℕ
deriving DecidableEq, Repr

/-- One entry of GameActivityMotionEvent::pointers: the pointer id and the
raw coordinates returned by GameActivityPointerAxes_getX/getY. -/
structure MotionPointer where
  id : ℤ
  x : F
  y : F
deriving DecidableEq, Repr

/-- GameActivityMotionEvent: the action word and the active pointers
(pointerCount is the list length). -/
structure MotionEvent where
  action : ℕ
  pointers : List MotionPointer
deriving DecidableEq, Repr

def AMOTION_EVENT_ACTION_MASK : ℕ := 0xff

def AMOTION_EVENT_ACTION_POINTER_INDEX_MASK : ℕ := 0xff00

def AMOTION_EVENT_ACTION_POINTER_INDEX_SHIFT : ℕ := 8

def AMOTION_EVENT_ACTION_DOWN : ℕ := 0

def AMOTION_EVENT_ACTION_UP : ℕ := 1

def AMOTION_EVENT_ACTION_MOVE : ℕ := 2

def AMOTION_EVENT_ACTION_POINTER_DOWN : ℕ := 5

def AMOTION_EVENT_ACTION_POINTER_UP : ℕ := 6

def GAMEACTIVITY_MAX_NUM_POINTERS_IN_MOTION_EVENT : ℕ := 8

/-- Observable actions of NativeEngine::process_input_events, in program
order: the tracker mutations, the diagnostic logs, and the dispatches to
callback_touch_screen_event. -/
inductive TAct
  | emit (ev : TouchScreenEvent)
  | logMoveMiss
  | logUpMiss
  | upRemove (id : ℤ) (found : Bool)
  | addRecord (id : ℤ) (p : Position)
  | updateRecord (id : ℤ) (p : Position)
deriving DecidableEq, Repr

/-- The std::find_if over previous_positions in the Move branch: first
record whose first component equals the id. -/
def findRecord : List (ℤ × Position) → ℤ → Option Position
  | [], _ => none
  | (j, p) :: t, id => if j = id then some p else findRecord t id

/-- In-place update (pp.x = ...; pp.y = ...) of the record returned by
find_if: replaces the first record with the given id. -/
def updateFirst : List (ℤ × Position) → ℤ → Position → List (ℤ × Position)
  | [], _, _ => []
  | (j, p) :: t, id, q =>
      if j = id then (j, q) :: t else (j, p) :: updateFirst t id q

/-- The AMOTION_EVENT_ACTION_MOVE inner loop of process_input_events
(native_engine.cpp lines 185-218).  The TouchScreenEvent ev is threaded
through the iterations exactly as the single C++ local is: in particular
move_ndelta is only overwritten when the id is found, and the callback is
invoked for every pointer of the batch, found or not.  mx and my are
ev.max.x and ev.max.y.  Returns the threaded ev, the tracker and the
trace. -/
def moveLoop (mx my : F) :
    List MotionPointer → ℕ → TouchScreenEvent → List (ℤ × Position) →
    TouchScreenEvent × List (ℤ × Position) × List TAct
  | [], _, ev, t => (ev, t, [])
  | p :: ps, i, ev, t =>
      let ev1 : TouchScreenEvent :=
        { ev with
          pointer_index := i
          id := p.id
          pos := ⟨p.x, p.y⟩
          norm_pos := ⟨fdiv p.x mx, fdiv p.y my⟩ }
      match findRecord t p.id with
      | none =>
          let r := moveLoop mx my ps (i + 1) ev1 t
          (r.1, r.2.1, TAct.logMoveMiss :: TAct.emit ev1 :: r.2.2)
      | some pp =>
          let ev2 : TouchScreenEvent :=
            { ev1 with
              move_ndelta := ⟨fsub ev1.norm_pos.x pp.x, fsub ev1.norm_pos.y pp.y⟩ }
          let t1 := updateFirst t p.id ev1.norm_pos
          let r := moveLoop mx my ps (i + 1) ev2 t1
          (r.1, r.2.1, TAct.updateRecord p.id ev1.norm_pos :: TAct.emit ev2 :: r.2.2)

/-- The event-cooking block at the bottom of process_input_events
(native_engine.cpp lines 227-265): runs when pointerIndex was set to a
valid index by the action switch; resolves the pointer, normalizes, runs
the Up/Down switch on the tracker, then dispatches the event.  ev arrives
with type and min/max already set. -/
def cook (me : MotionEvent) (tracker : List (ℤ × Position))
    (ev : TouchScreenEvent) (pointerIndex : ℕ) :
    List (ℤ × Position) × List TAct :=
  if pointerIndex ≠ GAMEACTIVITY_MAX_NUM_POINTERS_IN_MOTION_EVENT then
    let p := me.pointers.getD pointerIndex ⟨0, F.fin 0, F.fin 0⟩
    let ev1 : TouchScreenEvent :=
      { ev with
        pointer_index := pointerIndex
        id := p.id
        pos := ⟨p.x, p.y⟩
        norm_pos := ⟨fdiv p.x ev.max.x, fdiv p.y ev.max.y⟩ }
    match ev1.type with
    | TSEType.Up =>
        let found := tracker.any (fun el => el.1 == ev1.id)
        let tracker1 := tracker.filter (fun el => !(el.1 == ev1.id))
        (tracker1,
          TAct.upRemove ev1.id found ::
            ((if found then [] else [TAct.logUpMiss]) ++ [TAct.emit ev1]))
    | TSEType.Down =>
        (tracker ++ [(ev1.id, ev1.norm_pos)],
          [TAct.addRecord ev1.id ev1.norm_pos, TAct.emit ev1])
    | TSEType.Move =>
        -- unreachable from process_input_events: the Move action never sets
        -- pointerIndex; the C++ switch has no Move case so it would fall
        -- through straight to the callback dispatch
        (tracker, [TAct.emit ev1])
  else (tracker, [])

/-- Processing of one GameActivityMotionEvent by process_input_events
(native_engine.cpp lines 140-265).  ev0 stands for the indeterminate
initial contents of the stack-allocated TouchScreenEvent ev (its fields
are assigned exactly where the source assigns them).  surfW and surfH are
mSurfWidth and mSurfHeight. -/
def processMotionEvent (ev0 : TouchScreenEvent) (surfW surfH : ℤ)
    (me : MotionEvent) (tracker : List (ℤ × Position)) :
    List (ℤ × Position) × List TAct :=
  if 0 < me.pointers.length then
    let action := me.action
    let actionMasked := action &&& AMOTION_EVENT_ACTION_MASK
    let ev : TouchScreenEvent :=
      { ev0 with
        min := ⟨F.fin 0, F.fin 0⟩
        max := ⟨intToF surfW, intToF surfH⟩ }
    if actionMasked = AMOTION_EVENT_ACTION_DOWN then
      cook me tracker { ev with type := TSEType.Down } 0
    else if actionMasked = AMOTION_EVENT_ACTION_POINTER_DOWN then
      cook me tracker { ev with type := TSEType.Down }
        ((action &&& AMOTION_EVENT_ACTION_POINTER_INDEX_MASK) >>>
          AMOTION_EVENT_ACTION_POINTER_INDEX_SHIFT)
    else if actionMasked = AMOTION_EVENT_ACTION_UP then
      cook me tracker { ev with type := TSEType.Up } 0
    else if actionMasked = AMOTION_EVENT_ACTION_POINTER_UP then
      cook me tracker { ev with type := TSEType.Up }
        ((action &&& AMOTION_EVENT_ACTION_POINTER_INDEX_MASK) >>>
          AMOTION_EVENT_ACTION_POINTER_INDEX_SHIFT)
    else if actionMasked = AMOTION_EVENT_ACTION_MOVE then
      let r := moveLoop ev.max.x ev.max.y me.pointers 0
        { ev with type := TSEType.Move } tracker
      (r.2.1, r.2.2)
    else (tracker, [])
  else (tracker, [])

/-- The outer loop of process_input_events over the motion events of the
swapped input buffer.  Each event gets its own freshly stack-allocated
TouchScreenEvent, hence the per-event indeterminate initial value. -/
def processInputEvents (surfW surfH : ℤ) :
    List (TouchScreenEvent × MotionEvent) → List (ℤ × Position) →
    List (ℤ × Position) × List TAct
  | [], t => (t, [])
  | (e0, me) :: rest, t =>
      let r1 := processMotionEvent e0 surfW surfH me t
      let r2 := processInputEvents surfW surfH rest r1.1
      (r2.1, r1.2 ++ r2.2)

/-- The id that processing the motion event would register by the Down
branch of the cooking block (none if the event does not cook a Down). -/
def cookedDownId (me : MotionEvent) : Option ℤ :=
  if 0 < me.pointers.length then
    let actionMasked := me.action &&& AMOTION_EVENT_ACTION_MASK
    if actionMasked = AMOTION_EVENT_ACTION_DOWN then
      some ((me.pointers.getD 0 ⟨0, F.fin 0, F.fin 0⟩).id)
    else if actionMasked = AMOTION_EVENT_ACTION_POINTER_DOWN then
      let idx := (me.action &&& AMOTION_EVENT_ACTION_POINTER_INDEX_MASK) >>>
        AMOTION_EVENT_ACTION_POINTER_INDEX_SHIFT
      if idx ≠ GAMEACTIVITY_MAX_NUM_POINTERS_IN_MOTION_EVENT then
        some ((me.pointers.getD idx ⟨0, F.fin 0, F.fin 0⟩).id)
      else none
    else none
  else none

/-- The id keys of the tracker are pairwise distinct. -/
def NodupKeys (t : List (ℤ × Position)) : Prop :=
  (t.map Prod.fst).Nodup

/-- Every Down cooked along the batch registers an id that is not tracked
at the moment it is processed (the well-formed event streams the Android
host delivers). -/
def FreshDowns (surfW surfH : ℤ) :
    List (ℤ × Position) → List (TouchScreenEvent × MotionEvent) → Prop
  | _, [] => True
  | t, (e0, me) :: rest =>
      (∀ j, cookedDownId me = some j → findRecord t j = none) ∧
        FreshDowns surfW surfH (processMotionEvent e0 surfW surfH me t).1 rest

/-- A concrete indeterminate initial value for the stack TouchScreenEvent,
used by the concrete counterexamples (the 9s mark fields the source never
initialized on the exercised path). -/
def ev0c : TouchScreenEvent :=
  { type := TSEType.Move
    id := 0
    min := ⟨F.fin 0, F.fin 0⟩
    max := ⟨F.fin 0, F.fin 0⟩
    pos := ⟨F.fin 0, F.fin 0⟩
    norm_pos := ⟨F.fin 0, F.fin 0⟩
    move_ndelta := ⟨F.fin 9, F.fin 9⟩
    pointer_index := 0 }

example :
    (processMotionEvent ev0c 2 2 ⟨AMOTION_EVENT_ACTION_DOWN, [⟨1, F.fin 1, F.fin 1⟩]⟩ []).1
      = [(1, ⟨F.fin (1/2), F.fin (1/2)⟩)] := by rfl

example :
    (processMotionEvent ev0c 2 2 ⟨AMOTION_EVENT_ACTION_MOVE, [⟨7, F.fin 1, F.fin 1⟩]⟩ []).2
      = [TAct.logMoveMiss,
         TAct.emit { ev0c with
           type := TSEType.Move, id := 7,
           min := ⟨F.fin 0, F.fin 0⟩, max := ⟨F.fin 2, F.fin 2⟩,
           pos := ⟨F.fin 1, F.fin 1⟩, norm_pos := ⟨F.fin (1/2), F.fin (1/2)⟩,
           pointer_index := 0 }] := by rfl

/-- The fields of class NativeEngine that the verified properties touch
(EGL handles modelled as Option of an abstract handle number; EGL_NO_*
is none). -/
structure NativeEngine where
  mHasFocus : Bool
  mIsVisible : Bool
  mHasWindow : Bool
  mHasGLObjects : Bool
  mEglDisplay : Option ℕ
  mEglSurface : Option ℕ
  mEglContext : Option ℕ
  mEglConfig : ℕ
  mSurfWidth : ℤ
  mSurfHeight : ℤ
  mIsFirstFrame : Bool
  vs_loaded : Bool
  fs_loaded : Bool
  nn : ℕ
  previous_positions : List (ℤ × Position)
deriving DecidableEq, Repr

/-- The constructor NativeEngine::NativeEngine (native_engine.cpp
lines 38-74). -/
def NativeEngine.initial : NativeEngine :=
  { mHasFocus := false
    mIsVisible := false
    mHasWindow := false
    mHasGLObjects := false
    mEglDisplay := none
    mEglSurface := none
    mEglContext := none
    mEglConfig := 0
    mSurfWidth := 0
    mSurfHeight := 0
    mIsFirstFrame := true
    vs_loaded := false
    fs_loaded := false
    nn := 0
    previous_positions := [] }

/-- Observable EGL/GL calls issued by the engine, in program order.
makeCurrentNull is eglMakeCurrent(dpy, EGL_NO_SURFACE, EGL_NO_SURFACE,
EGL_NO_CONTEXT). -/
inductive EglAct
  | makeCurrentNull
  | destroySurface (h : ℕ)
  | destroyContext (h : ℕ)
  | terminateDisplay (h : ℕ)
  | viewport (w h : ℤ)
  | clearBuffer
  | drawArrays
  | swapBuffers
deriving DecidableEq, Repr

/-- NativeEngine::KillGLObjects (native_engine.cpp lines 673-679). -/
def killGLObjects (s : NativeEngine) : NativeEngine :=
  if s.mHasGLObjects then { s with mHasGLObjects := false } else s

/-- NativeEngine::KillSurface (native_engine.cpp lines 681-689). -/
def killSurface (s : NativeEngine) : NativeEngine × List EglAct :=
  match s.mEglSurface with
  | some u => ({ s with mEglSurface := none },
      [EglAct.makeCurrentNull, EglAct.destroySurface u])
  | none => (s, [EglAct.makeCurrentNull])

/-- NativeEngine::KillContext (native_engine.cpp lines 691-704). -/
def killContext (s : NativeEngine) : NativeEngine × List EglAct :=
  let s1 := killGLObjects s
  match s1.mEglContext with
  | some c => ({ s1 with mEglContext := none },
      [EglAct.makeCurrentNull, EglAct.destroyContext c])
  | none => (s1, [EglAct.makeCurrentNull])

/-- NativeEngine::KillDisplay (native_engine.cpp lines 706-718). -/
def killDisplay (s : NativeEngine) : NativeEngine × List EglAct :=
  let r1 := killContext s
  let r2 := killSurface r1.1
  match (r2.1).mEglDisplay with
  | some d => ({ r2.1 with mEglDisplay := none },
      r1.2 ++ r2.2 ++ [EglAct.terminateDisplay d])
  | none => (r2.1, r1.2 ++ r2.2)

def EGL_SUCCESS : ℤ := 0x3000

def EGL_BAD_CONTEXT : ℤ := 0x3006

def EGL_BAD_DISPLAY : ℤ := 0x3008

def EGL_BAD_SURFACE : ℤ := 0x300D

def EGL_CONTEXT_LOST : ℤ := 0x300E

/-- NativeEngine::HandleEglError (native_engine.cpp lines 720-745):
returns the repaired state, the trace of teardown calls, and the bool
result (handled / unhandled). -/
def handleEglError (error : ℤ) (s : NativeEngine) :
    NativeEngine × List EglAct × Bool :=
  if error = EGL_SUCCESS then (s, [], true)
  else if error = EGL_CONTEXT_LOST then
    let r := killContext s
    (r.1, r.2, true)
  else if error = EGL_BAD_CONTEXT then
    let r := killContext s
    (r.1, r.2, true)
  else if error = EGL_BAD_DISPLAY then
    let r := killDisplay s
    (r.1, r.2, true)
  else if error = EGL_BAD_SURFACE then
    let r := killSurface s
    (r.1, r.2, true)
  else (s, [], false)

/-- Results of the platform EGL/GLES calls a frame may issue, supplied by
the environment (none models EGL_NO_DISPLAY / EGL_NO_SURFACE /
EGL_NO_CONTEXT returns). -/
structure EglEnv where
  eglGetDisplay : Option ℕ
  eglInitializeOk : Bool
  chosenConfig : ℕ
  createWindowSurface : Option ℕ
  createContext : Option ℕ
  makeCurrentOk : Bool
  makeCurrentErr : ℤ
  vsCompileOk : Bool
  fsCompileOk : Bool
  queryWidth : ℤ
  queryHeight : ℤ
  swapOk : Bool
  swapErr : ℤ
deriving DecidableEq, Repr

/-- NativeEngine::InitDisplay (native_engine.cpp lines 401-415).
eglInitialize on EGL_NO_DISPLAY fails with EGL_BAD_DISPLAY per the EGL
specification, hence the isSome conjunct on the success flag. -/
def initDisplay (env : EglEnv) (s : NativeEngine) : NativeEngine × Bool :=
  if s.mEglDisplay ≠ none then (s, true)
  else
    let s1 := { s with mEglDisplay := env.eglGetDisplay }
    (s1, env.eglInitializeOk && env.eglGetDisplay.isSome)

/-- NativeEngine::InitSurface (native_engine.cpp lines 417-454).  The
MY_ASSERT(mEglDisplay != EGL_NO_DISPLAY) precondition is established by
the only caller (PrepareToRender after a successful InitDisplay). -/
def initSurface (env : EglEnv) (s : NativeEngine) : NativeEngine × Bool :=
  if s.mEglSurface ≠ none then (s, true)
  else
    let s1 := { s with mEglConfig := env.chosenConfig }
    match env.createWindowSurface with
    | some u => ({ s1 with mEglSurface := some u }, true)
    | none => (s1, false)

/-- NativeEngine::InitContext (native_engine.cpp lines 456-480). -/
def initContext (env : EglEnv) (s : NativeEngine) : NativeEngine × Bool :=
  if s.mEglContext ≠ none then (s, true)
  else
    match env.createContext with
    | some c => ({ s with mEglContext := some c }, true)
    | none => (s, false)

/-- NativeEngine::load_vertex_shader (native_engine.cpp lines 496-536):
only the vs_loaded flag effect is modelled. -/
def loadVertexShader (env : EglEnv) (s : NativeEngine) : NativeEngine :=
  if env.vsCompileOk then { s with vs_loaded := true } else s

/-- NativeEngine::load_frag_shader (native_engine.cpp lines 538-575). -/
def loadFragShader (env : EglEnv) (s : NativeEngine) : NativeEngine :=
  if env.fsCompileOk then { s with fs_loaded := true } else s

/-- NativeEngine::PrepareToRender (native_engine.cpp lines 616-671).
Note that an eglMakeCurrent failure is routed through HandleEglError but
the function still returns true afterwards, exactly as the source does.
ConfigureOpenGL, load_program and setup_vertex_buffer touch no modelled
state. -/
def prepareToRender (env : EglEnv) (s : NativeEngine) :
    NativeEngine × List EglAct × Bool :=
  if s.mEglDisplay = none ∨ s.mEglSurface = none ∨ s.mEglContext = none then
    let r1 := initDisplay env s
    if !r1.2 then (r1.1, [], false)
    else
      let r2 := initSurface env r1.1
      if !r2.2 then (r2.1, [], false)
      else
        let r3 := initContext env r2.1
        if !r3.2 then (r3.1, [], false)
        else
          let r4 :=
            if env.makeCurrentOk then (r3.1, ([] : List EglAct))
            else
              let r := handleEglError env.makeCurrentErr r3.1
              (r.1, r.2.1)
          let s5 := loadFragShader env (loadVertexShader env r4.1)
          (s5, r4.2, true)
  else (s, [], true)

/-- NativeEngine::DoFrame (native_engine.cpp lines 774-860). -/
def doFrame (env : EglEnv) (s : NativeEngine) : NativeEngine × List EglAct :=
  let r1 := prepareToRender env s
  if !r1.2.2 then (r1.1, r1.2.1)
  else
    let s1 := r1.1
    let width := env.queryWidth
    let height := env.queryHeight
    if width ≠ s1.mSurfWidth ∨ height ≠ s1.mSurfHeight then
      ({ s1 with mSurfWidth := width, mSurfHeight := height },
        r1.2.1 ++ [EglAct.viewport width height])
    else
      let s2 := if s1.mIsFirstFrame then { s1 with mIsFirstFrame := false } else s1
      let s3 := { s2 with nn := s2.nn + 1 }
      let t2 := [EglAct.clearBuffer, EglAct.drawArrays, EglAct.swapBuffers]
      if env.swapOk then (s3, r1.2.1 ++ t2)
      else
        let r := handleEglError env.swapErr s3
        (r.1, r1.2.1 ++ t2 ++ r.2.1)

def APP_CMD_INPUT_CHANGED : ℤ := 0

def APP_CMD_INIT_WINDOW : ℤ := 1

def APP_CMD_TERM_WINDOW : ℤ := 2

def APP_CMD_WINDOW_RESIZED : ℤ := 3

def APP_CMD_WINDOW_REDRAW_NEEDED : ℤ := 4

def APP_CMD_CONTENT_RECT_CHANGED : ℤ := 5

def APP_CMD_GAINED_FOCUS : ℤ := 6

def APP_CMD_LOST_FOCUS : ℤ := 7

def APP_CMD_CONFIG_CHANGED : ℤ := 8

def APP_CMD_LOW_MEMORY : ℤ := 9

def APP_CMD_START : ℤ := 10

def APP_CMD_RESUME : ℤ := 11

def APP_CMD_SAVE_STATE : ℤ := 12

def APP_CMD_PAUSE : ℤ := 13

def APP_CMD_STOP : ℤ := 14

/-- NativeEngine::HandleCommand (native_engine.cpp lines 323-398).
windowPresent models the mApp->window != NULL test of APP_CMD_INIT_WINDOW;
APP_CMD_SAVE_STATE only writes through mApp (unmodelled host memory). -/
def handleCommand (cmd : ℤ) (windowPresent : Bool) (s : NativeEngine) :
    NativeEngine × List EglAct :=
  if cmd = APP_CMD_SAVE_STATE then (s, [])
  else if cmd = APP_CMD_INIT_WINDOW then
    (if windowPresent then { s with mHasWindow := true } else s, [])
  else if cmd = APP_CMD_TERM_WINDOW then
    let r := killSurface s
    ({ r.1 with mHasWindow := false }, r.2)
  else if cmd = APP_CMD_GAINED_FOCUS then ({ s with mHasFocus := true }, [])
  else if cmd = APP_CMD_LOST_FOCUS then ({ s with mHasFocus := false }, [])
  else if cmd = APP_CMD_PAUSE then (s, [])
  else if cmd = APP_CMD_RESUME then (s, [])
  else if cmd = APP_CMD_STOP then ({ s with mIsVisible := false }, [])
  else if cmd = APP_CMD_START then ({ s with mIsVisible := true }, [])
  else if cmd = APP_CMD_WINDOW_RESIZED then (s, [])
  else if cmd = APP_CMD_CONFIG_CHANGED then (s, [])
  else if cmd = APP_CMD_LOW_MEMORY then
    (if !s.mHasWindow then killGLObjects s else s, [])
  else (s, [])

/-- NativeEngine::IsAnimating (native_engine.cpp lines 98-100). -/
def isAnimating (s : NativeEngine) : Bool :=
  s.mHasFocus && s.mIsVisible && s.mHasWindow

/-- The engine-level effect of process_input_events: reads mSurfWidth,
mSurfHeight and previous_positions, writes back the tracker.  (The
callback also shifts the triangle geometry, which is unmodelled.) -/
def processInput (batch : List (TouchScreenEvent × MotionEvent))
    (s : NativeEngine) : NativeEngine × List TAct :=
  let r := processInputEvents s.mSurfWidth s.mSurfHeight batch s.previous_positions
  ({ s with previous_positions := r.1 }, r.2)

/-- One observable operation of the game loop (GameLoop and the
destructor): a lifecycle command, an input drain, a frame, or the
destructor teardown (KillContext). -/
inductive Label
  | cmd (c : ℤ) (windowPresent : Bool)
  | input (batch : List (TouchScreenEvent × MotionEvent))
  | frame (env : EglEnv)
  | shutdown

/-- Does the label drive a frame (the only operation that can write the
cached surface dimensions)? -/
def Label.isFrame : Label → Bool
  | Label.frame _ => true
  | _ => false

/-- One step of the engine. -/
def step (s : NativeEngine) : Label → NativeEngine
  | Label.cmd c w => (handleCommand c w s).1
  | Label.input b => (processInput b s).1
  | Label.frame env => (doFrame env s).1
  | Label.shutdown => (killContext s).1

/-- The state after a sequence of operations. -/
def run (s : NativeEngine) (ls : List Label) : NativeEngine :=
  ls.foldl step s

/-- The handle-dependency invariant: the surface and the context are only
ever valid while the display is. -/
def EglInv (s : NativeEngine) : Prop :=
  s.mEglDisplay = none → s.mEglSurface = none ∧ s.mEglContext = none

theorem killSurface_fields (s : NativeEngine) :
    (killSurface s).1.mEglSurface = none ∧
    (killSurface s).1.mEglDisplay = s.mEglDisplay ∧
    (killSurface s).1.mEglContext = s.mEglContext ∧
    (killSurface s).1.mHasFocus = s.mHasFocus ∧
    (killSurface s).1.mIsVisible = s.mIsVisible ∧
    (killSurface s).1.mHasWindow = s.mHasWindow ∧
    (killSurface s).1.mSurfWidth = s.mSurfWidth ∧
    (killSurface s).1.mSurfHeight = s.mSurfHeight := by
  unfold killSurface
  cases h : s.mEglSurface <;> simp [h]

theorem killSurface_trace (s : NativeEngine) :
    EglAct.makeCurrentNull ∈ (killSurface s).2 ∧
    (∀ u, s.mEglSurface = some u → EglAct.destroySurface u ∈ (killSurface s).2) := by
  unfold killSurface
  cases h : s.mEglSurface <;> simp [h]

theorem killGLObjects_fields (s : NativeEngine) :
    (killGLObjects s).mEglSurface = s.mEglSurface ∧
    (killGLObjects s).mEglDisplay = s.mEglDisplay ∧
    (killGLObjects s).mEglContext = s.mEglContext ∧
    (killGLObjects s).mSurfWidth = s.mSurfWidth ∧
    (killGLObjects s).mSurfHeight = s.mSurfHeight := by
  unfold killGLObjects
  split <;> simp

theorem killContext_fields (s : NativeEngine) :
    (killContext s).1.mEglContext = none ∧
    (killContext s).1.mEglDisplay = s.mEglDisplay ∧
    (killContext s).1.mEglSurface = s.mEglSurface ∧
    (killContext s).1.mSurfWidth = s.mSurfWidth ∧
    (killContext s).1.mSurfHeight = s.mSurfHeight := by
  obtain ⟨h1, h2, h3, h4, h5⟩ := killGLObjects_fields s
  unfold killContext
  cases h : (killGLObjects s).mEglContext <;>
    simp [h, h1, h2, h3, h4, h5]

theorem killContext_trace (s : NativeEngine) :
    ∀ c, s.mEglContext = some c → EglAct.destroyContext c ∈ (killContext s).2 := by
  obtain ⟨h1, h2, h3, h4, h5⟩ := killGLObjects_fields s
  intro c hc
  simp only [killContext]
  rw [h3, hc]
  simp

theorem killDisplay_fields (s : NativeEngine) :
    (killDisplay s).1.mEglDisplay = none ∧
    (killDisplay s).1.mEglSurface = none ∧
    (killDisplay s).1.mEglContext = none ∧
    (killDisplay s).1.mSurfWidth = s.mSurfWidth ∧
    (killDisplay s).1.mSurfHeight = s.mSurfHeight := by
  obtain ⟨c1, c2, c3, c4, c5⟩ := killContext_fields s
  obtain ⟨s1, s2, s3, s4, s5, s6, s7, s8⟩ := killSurface_fields (killContext s).1
  unfold killDisplay
  cases h : (killSurface (killContext s).1).1.mEglDisplay <;>
    simp [h, s1, s3, c1, s7, s8, c4, c5]

def c2_sFull : NativeEngine := { NativeEngine.initial with
  mEglDisplay := some 1, mEglSurface := some 2, mEglContext := some 3 }

/-- C2: HandleEglError repairs the handle state exactly as specified:
EGL_SUCCESS is a handled no-op; EGL_CONTEXT_LOST and EGL_BAD_CONTEXT
destroy and null only the context handle; EGL_BAD_DISPLAY leaves display,
surface and context all null; EGL_BAD_SURFACE destroys and nulls only the
surface handle; any other code changes no handle and returns false. -/
theorem c2_handle_egl_error :
    (∀ s : NativeEngine, handleEglError EGL_SUCCESS s = (s, [], true))
    ∧ (∀ s : NativeEngine, ∀ e, (e = EGL_CONTEXT_LOST ∨ e = EGL_BAD_CONTEXT) →
        (handleEglError e s).1.mEglContext = none
        ∧ (handleEglError e s).1.mEglDisplay = s.mEglDisplay
        ∧ (handleEglError e s).1.mEglSurface = s.mEglSurface
        ∧ (handleEglError e s).2.2 = true
        ∧ ∀ c, s.mEglContext = some c →
            EglAct.destroyContext c ∈ (handleEglError e s).2.1)
    ∧ (∀ s : NativeEngine,
        (handleEglError EGL_BAD_DISPLAY s).1.mEglDisplay = none
        ∧ (handleEglError EGL_BAD_DISPLAY s).1.mEglSurface = none
        ∧ (handleEglError EGL_BAD_DISPLAY s).1.mEglContext = none
        ∧ (handleEglError EGL_BAD_DISPLAY s).2.2 = true)
    ∧ (∀ s : NativeEngine,
        (handleEglError EGL_BAD_SURFACE s).1.mEglSurface = none
        ∧ (handleEglError EGL_BAD_SURFACE s).1.mEglDisplay = s.mEglDisplay
        ∧ (handleEglError EGL_BAD_SURFACE s).1.mEglContext = s.mEglContext
        ∧ (handleEglError EGL_BAD_SURFACE s).2.2 = true
        ∧ ∀ u, s.mEglSurface = some u →
            EglAct.destroySurface u ∈ (handleEglError EGL_BAD_SURFACE s).2.1)
    ∧ (∀ e, ∀ s : NativeEngine, e ≠ EGL_SUCCESS → e ≠ EGL_CONTEXT_LOST →
        e ≠ EGL_BAD_CONTEXT → e ≠ EGL_BAD_DISPLAY → e ≠ EGL_BAD_SURFACE →
        handleEglError e s = (s, [], false)) := by
  refine ⟨?_, ?_, ?_, ?_, ?_⟩
  · intro s
    simp [handleEglError]
  · intro s e he
    obtain ⟨h1, h2, h3, h4, h5⟩ := killContext_fields s
    have htr := killContext_trace s
    rcases he with he | he <;> subst he <;>
      simp [handleEglError, EGL_SUCCESS, EGL_CONTEXT_LOST, EGL_BAD_CONTEXT,
        h1, h2, h3] <;> exact htr
  · intro s
    obtain ⟨h1, h2, h3, h4, h5⟩ := killDisplay_fields s
    simp [handleEglError, EGL_SUCCESS, EGL_CONTEXT_LOST, EGL_BAD_CONTEXT,
      EGL_BAD_DISPLAY, h1, h2, h3]
  · intro s
    obtain ⟨h1, h2, h3, h4, h5, h6, h7, h8⟩ := killSurface_fields s
    have htr := (killSurface_trace s).2
    simp [handleEglError, EGL_SUCCESS, EGL_CONTEXT_LOST, EGL_BAD_CONTEXT,
      EGL_BAD_DISPLAY, EGL_BAD_SURFACE, h1, h2, h3]
    exact htr
  · intro e s n1 n2 n3 n4 n5
    simp [handleEglError, n1, n2, n3, n4, n5]

/-- Witness for C2 at a fully populated handle state and at the unknown
code 0. -/
theorem c2_handle_egl_error_witness :
    (handleEglError EGL_CONTEXT_LOST c2_sFull).1.mEglContext = none
    ∧ EglAct.destroyContext 3 ∈ (handleEglError EGL_CONTEXT_LOST c2_sFull).2.1
    ∧ handleEglError 0 c2_sFull = (c2_sFull, [], false) := by
  obtain ⟨h1, h2, h3, h4, h5⟩ := c2_handle_egl_error
  refine ⟨(h2 c2_sFull EGL_CONTEXT_LOST (Or.inl rfl)).1, ?_, ?_⟩
  · exact (h2 c2_sFull EGL_CONTEXT_LOST (Or.inl rfl)).2.2.2.2 3 rfl
  · exact h5 0 c2_sFull (by decide) (by decide) (by decide) (by decide) (by decide)

/-- C10: APP_CMD_TERM_WINDOW kills the surface (unbind, destroy, null) and
clears hasWindow, leaving the display and context handles and the
hasFocus / isVisible flags unchanged. -/
theorem c10_term_window (s : NativeEngine) (w : Bool) :
    (handleCommand APP_CMD_TERM_WINDOW w s).1.mHasWindow = false
    ∧ (handleCommand APP_CMD_TERM_WINDOW w s).1.mEglSurface = none
    ∧ (handleCommand APP_CMD_TERM_WINDOW w s).1.mEglDisplay = s.mEglDisplay
    ∧ (handleCommand APP_CMD_TERM_WINDOW w s).1.mEglContext = s.mEglContext
    ∧ (handleCommand APP_CMD_TERM_WINDOW w s).1.mHasFocus = s.mHasFocus
    ∧ (handleCommand APP_CMD_TERM_WINDOW w s).1.mIsVisible = s.mIsVisible
    ∧ EglAct.makeCurrentNull ∈ (handleCommand APP_CMD_TERM_WINDOW w s).2
    ∧ (∀ u, s.mEglSurface = some u →
        EglAct.destroySurface u ∈ (handleCommand APP_CMD_TERM_WINDOW w s).2) := by
  obtain ⟨h1, h2, h3, h4, h5, h6, h7, h8⟩ := killSurface_fields s
  obtain ⟨t1, t2⟩ := killSurface_trace s
  simp [handleCommand, APP_CMD_SAVE_STATE, APP_CMD_INIT_WINDOW,
    APP_CMD_TERM_WINDOW, h1, h2, h3, h4, h5, t1]
  exact t2

/-- Witness for C10 at a fully populated handle state. -/
theorem c10_term_window_witness :
    (handleCommand APP_CMD_TERM_WINDOW true c2_sFull).1.mEglSurface = none
    ∧ EglAct.destroySurface 2 ∈ (handleCommand APP_CMD_TERM_WINDOW true c2_sFull).2 := by
  have h := c10_term_window c2_sFull true
  exact ⟨h.2.1, h.2.2.2.2.2.2.2 2 rfl⟩

theorem handleEglError_dims (e : ℤ) (s : NativeEngine) :
    (handleEglError e s).1.mSurfWidth = s.mSurfWidth ∧
    (handleEglError e s).1.mSurfHeight = s.mSurfHeight := by
  obtain ⟨_, _, _, kc4, kc5⟩ := killContext_fields s
  obtain ⟨_, _, _, _, _, _, ks7, ks8⟩ := killSurface_fields s
  obtain ⟨_, _, _, kd4, kd5⟩ := killDisplay_fields s
  unfold handleEglError
  split_ifs <;> simp_all

theorem initDisplay_dims (env : EglEnv) (s : NativeEngine) :
    (initDisplay env s).1.mSurfWidth = s.mSurfWidth ∧
    (initDisplay env s).1.mSurfHeight = s.mSurfHeight := by
  unfold initDisplay
  split_ifs <;> simp

theorem initSurface_dims (env : EglEnv) (s : NativeEngine) :
    (initSurface env s).1.mSurfWidth = s.mSurfWidth ∧
    (initSurface env s).1.mSurfHeight = s.mSurfHeight := by
  unfold initSurface
  split_ifs <;> cases env.createWindowSurface <;> simp

theorem initContext_dims (env : EglEnv) (s : NativeEngine) :
    (initContext env s).1.mSurfWidth = s.mSurfWidth ∧
    (initContext env s).1.mSurfHeight = s.mSurfHeight := by
  unfold initContext
  split_ifs <;> cases env.createContext <;> simp

theorem loadShaders_dims (env : EglEnv) (s : NativeEngine) :
    (loadFragShader env (loadVertexShader env s)).mSurfWidth = s.mSurfWidth ∧
    (loadFragShader env (loadVertexShader env s)).mSurfHeight = s.mSurfHeight := by
  unfold loadFragShader loadVertexShader
  split_ifs <;> simp


theorem prepareToRender_dims (env : EglEnv) (s : NativeEngine) :
    (prepareToRender env s).1.mSurfWidth = s.mSurfWidth ∧
    (prepareToRender env s).1.mSurfHeight = s.mSurfHeight := by
  obtain ⟨d1, d2⟩ := initDisplay_dims env s
  obtain ⟨e1, e2⟩ := initSurface_dims env (initDisplay env s).1
  obtain ⟨f1, f2⟩ := initContext_dims env (initSurface env (initDisplay env s).1).1
  obtain ⟨g1, g2⟩ := handleEglError_dims env.makeCurrentErr
    (initContext env (initSurface env (initDisplay env s).1).1).1
  obtain ⟨i1, i2⟩ := loadShaders_dims env
    (initContext env (initSurface env (initDisplay env s).1).1).1
  obtain ⟨j1, j2⟩ := loadShaders_dims env
    (handleEglError env.makeCurrentErr
      (initContext env (initSurface env (initDisplay env s).1).1).1).1
  by_cases h0 : s.mEglDisplay = none ∨ s.mEglSurface = none ∨ s.mEglContext = none <;>
    cases hd : (initDisplay env s).2 <;>
    cases hs : (initSurface env (initDisplay env s).1).2 <;>
    cases hc : (initContext env (initSurface env (initDisplay env s).1).1).2 <;>
    cases hm : env.makeCurrentOk <;>
    simp_all [prepareToRender]

theorem killSurface_noDraw (s : NativeEngine) :
    EglAct.drawArrays ∉ (killSurface s).2 ∧ EglAct.swapBuffers ∉ (killSurface s).2 := by
  unfold killSurface
  cases s.mEglSurface <;> simp

theorem killContext_noDraw (s : NativeEngine) :
    EglAct.drawArrays ∉ (killContext s).2 ∧ EglAct.swapBuffers ∉ (killContext s).2 := by
  unfold killContext
  cases h : (killGLObjects s).mEglContext <;> simp [h]

theorem killDisplay_noDraw (s : NativeEngine) :
    EglAct.drawArrays ∉ (killDisplay s).2 ∧ EglAct.swapBuffers ∉ (killDisplay s).2 := by
  obtain ⟨a1, a2⟩ := killContext_noDraw s
  obtain ⟨b1, b2⟩ := killSurface_noDraw (killContext s).1
  unfold killDisplay
  cases h : (killSurface (killContext s).1).1.mEglDisplay <;> simp_all [h]

theorem handleEglError_noDraw (e : ℤ) (s : NativeEngine) :
    EglAct.drawArrays ∉ (handleEglError e s).2.1 ∧
    EglAct.swapBuffers ∉ (handleEglError e s).2.1 := by
  obtain ⟨a1, a2⟩ := killContext_noDraw s
  obtain ⟨b1, b2⟩ := killSurface_noDraw s
  obtain ⟨c1, c2⟩ := killDisplay_noDraw s
  unfold handleEglError
  split_ifs <;> simp_all

theorem prepareToRender_noDraw (env : EglEnv) (s : NativeEngine) :
    EglAct.drawArrays ∉ (prepareToRender env s).2.1 ∧
    EglAct.swapBuffers ∉ (prepareToRender env s).2.1 := by
  obtain ⟨a1, a2⟩ := handleEglError_noDraw env.makeCurrentErr
    (initContext env (initSurface env (initDisplay env s).1).1).1
  by_cases h0 : s.mEglDisplay = none ∨ s.mEglSurface = none ∨ s.mEglContext = none <;>
    cases hd : (initDisplay env s).2 <;>
    cases hs : (initSurface env (initDisplay env s).1).2 <;>
    cases hc : (initContext env (initSurface env (initDisplay env s).1).1).2 <;>
    cases hm : env.makeCurrentOk <;>
    simp_all [prepareToRender]

theorem doFrame_prepFail (env : EglEnv) (s : NativeEngine)
    (hp : (prepareToRender env s).2.2 = false) :
    doFrame env s = ((prepareToRender env s).1, (prepareToRender env s).2.1) := by
  simp only [doFrame]
  rw [hp]
  simp

theorem doFrame_resize (env : EglEnv) (s : NativeEngine)
    (hp : (prepareToRender env s).2.2 = true)
    (hcond : env.queryWidth ≠ (prepareToRender env s).1.mSurfWidth ∨
      env.queryHeight ≠ (prepareToRender env s).1.mSurfHeight) :
    doFrame env s =
      ({ (prepareToRender env s).1 with
          mSurfWidth := env.queryWidth, mSurfHeight := env.queryHeight },
        (prepareToRender env s).2.1 ++
          [EglAct.viewport env.queryWidth env.queryHeight]) := by
  simp only [doFrame]
  rw [hp]
  simp only [Bool.not_true]
  rw [if_neg (by simp), if_pos hcond]

/-- C7: a DoFrame iteration that observes changed surface dimensions
updates the cache and the viewport and issues neither glDrawArrays nor
eglSwapBuffers; a draw is issued only when the queried dimensions equal
the cached ones. -/
theorem c7_resize_frame_never_draws :
    (∀ env : EglEnv, ∀ s : NativeEngine, (prepareToRender env s).2.2 = true →
      (env.queryWidth ≠ s.mSurfWidth ∨ env.queryHeight ≠ s.mSurfHeight) →
        (doFrame env s).1.mSurfWidth = env.queryWidth
        ∧ (doFrame env s).1.mSurfHeight = env.queryHeight
        ∧ EglAct.viewport env.queryWidth env.queryHeight ∈ (doFrame env s).2
        ∧ EglAct.drawArrays ∉ (doFrame env s).2
        ∧ EglAct.swapBuffers ∉ (doFrame env s).2)
    ∧ (∀ env : EglEnv, ∀ s : NativeEngine, EglAct.drawArrays ∈ (doFrame env s).2 →
        env.queryWidth = s.mSurfWidth ∧ env.queryHeight = s.mSurfHeight) := by
  constructor
  · intro env s hp hne
    obtain ⟨w1, w2⟩ := prepareToRender_dims env s
    obtain ⟨n1, n2⟩ := prepareToRender_noDraw env s
    have hcond : env.queryWidth ≠ (prepareToRender env s).1.mSurfWidth ∨
        env.queryHeight ≠ (prepareToRender env s).1.mSurfHeight := by
      rw [w1, w2]; exact hne
    rw [doFrame_resize env s hp hcond]
    simp_all
  · intro env s hmem
    obtain ⟨w1, w2⟩ := prepareToRender_dims env s
    obtain ⟨n1, n2⟩ := prepareToRender_noDraw env s
    by_cases hp : (prepareToRender env s).2.2 = true
    · by_cases hcond : env.queryWidth ≠ (prepareToRender env s).1.mSurfWidth ∨
          env.queryHeight ≠ (prepareToRender env s).1.mSurfHeight
      · rw [doFrame_resize env s hp hcond] at hmem
        simp_all
      · push_neg at hcond
        rw [w1, w2] at hcond
        exact hcond
    · have hp2 : (prepareToRender env s).2.2 = false := by
        revert hp; cases (prepareToRender env s).2.2 <;> simp
      rw [doFrame_prepFail env s hp2] at hmem
      exact absurd hmem n1

/-- A concrete environment for the frame witnesses: every platform call
succeeds and the surface query reports 100 x 200. -/
def envC : EglEnv :=
  { eglGetDisplay := some 1
    eglInitializeOk := true
    chosenConfig := 7
    createWindowSurface := some 2
    createContext := some 3
    makeCurrentOk := true
    makeCurrentErr := EGL_SUCCESS
    vsCompileOk := true
    fsCompileOk := true
    queryWidth := 100
    queryHeight := 200
    swapOk := true
    swapErr := EGL_SUCCESS }

/-- Witness for C7: from the all-handles-valid state with cached 0 x 0
dimensions, a query of 100 x 200 updates the cache and draws nothing. -/
theorem c7_resize_frame_never_draws_witness :
    (doFrame envC c2_sFull).1.mSurfWidth = 100
    ∧ EglAct.drawArrays ∉ (doFrame envC c2_sFull).2
    ∧ EglAct.swapBuffers ∉ (doFrame envC c2_sFull).2 := by
  have h := c7_resize_frame_never_draws.1 envC c2_sFull (by rfl)
    (Or.inl (by decide))
  exact ⟨h.1, h.2.2.2.1, h.2.2.2.2⟩

theorem EglInv_congr (s s2 : NativeEngine)
    (hd : s2.mEglDisplay = s.mEglDisplay) (hs : s2.mEglSurface = s.mEglSurface)
    (hc : s2.mEglContext = s.mEglContext) (h : EglInv s) : EglInv s2 := by
  intro hnone
  rw [hd] at hnone
  rw [hs, hc]
  exact h hnone

theorem EglInv_killSurface (s : NativeEngine) (h : EglInv s) :
    EglInv (killSurface s).1 := by
  obtain ⟨f1, f2, f3, _⟩ := killSurface_fields s
  intro hd
  rw [f2] at hd
  exact ⟨f1, f3.trans (h hd).2⟩

theorem EglInv_killContext (s : NativeEngine) (h : EglInv s) :
    EglInv (killContext s).1 := by
  obtain ⟨f1, f2, f3, _⟩ := killContext_fields s
  intro hd
  rw [f2] at hd
  exact ⟨f3.trans (h hd).1, f1⟩

theorem EglInv_killDisplay (s : NativeEngine) : EglInv (killDisplay s).1 := by
  obtain ⟨f1, f2, f3, _⟩ := killDisplay_fields s
  intro _
  exact ⟨f2, f3⟩

theorem EglInv_handleEglError (e : ℤ) (s : NativeEngine) (h : EglInv s) :
    EglInv (handleEglError e s).1 := by
  unfold handleEglError
  split_ifs <;>
    first
      | exact h
      | exact EglInv_killContext s h
      | exact EglInv_killDisplay s
      | exact EglInv_killSurface s h

theorem EglInv_initDisplay (env : EglEnv) (s : NativeEngine) (h : EglInv s) :
    EglInv (initDisplay env s).1 := by
  unfold initDisplay
  split_ifs with hd
  · exact h
  · push_neg at hd
    intro _
    exact ⟨by simpa using (h hd).1, by simpa using (h hd).2⟩

theorem initDisplay_ok_display (env : EglEnv) (s : NativeEngine)
    (hok : (initDisplay env s).2 = true) : (initDisplay env s).1.mEglDisplay ≠ none := by
  revert hok
  unfold initDisplay
  split_ifs with hd
  · intro _
    simpa using hd
  · intro hok
    simp only [Bool.and_eq_true, Option.isSome_iff_exists] at hok
    obtain ⟨_, d, hdis⟩ := hok
    simp [hdis]

theorem initSurface_display (env : EglEnv) (s : NativeEngine) :
    (initSurface env s).1.mEglDisplay = s.mEglDisplay := by
  unfold initSurface
  split_ifs <;> cases env.createWindowSurface <;> simp

theorem initContext_display (env : EglEnv) (s : NativeEngine) :
    (initContext env s).1.mEglDisplay = s.mEglDisplay := by
  unfold initContext
  split_ifs <;> cases env.createContext <;> simp

theorem loadShaders_handles (env : EglEnv) (s : NativeEngine) :
    (loadFragShader env (loadVertexShader env s)).mEglDisplay = s.mEglDisplay ∧
    (loadFragShader env (loadVertexShader env s)).mEglSurface = s.mEglSurface ∧
    (loadFragShader env (loadVertexShader env s)).mEglContext = s.mEglContext := by
  unfold loadFragShader loadVertexShader
  split_ifs <;> simp

theorem EglInv_of_display_ne (s : NativeEngine) (h : s.mEglDisplay ≠ none) :
    EglInv s := by
  intro hd
  exact absurd hd h

theorem prepareToRender_state_cases (env : EglEnv) (s : NativeEngine) :
    (prepareToRender env s).1 = s
    ∨ (prepareToRender env s).1 = (initDisplay env s).1
    ∨ ((initDisplay env s).2 = true ∧
        (prepareToRender env s).1 = (initSurface env (initDisplay env s).1).1)
    ∨ ((initDisplay env s).2 = true ∧
        (prepareToRender env s).1 =
          (initContext env (initSurface env (initDisplay env s).1).1).1)
    ∨ ((initDisplay env s).2 = true ∧
        (prepareToRender env s).1 =
          loadFragShader env (loadVertexShader env
            (initContext env (initSurface env (initDisplay env s).1).1).1))
    ∨ ((initDisplay env s).2 = true ∧
        (prepareToRender env s).1 =
          loadFragShader env (loadVertexShader env
            (handleEglError env.makeCurrentErr
              (initContext env (initSurface env (initDisplay env s).1).1).1).1)) := by
  by_cases h0 : s.mEglDisplay = none ∨ s.mEglSurface = none ∨ s.mEglContext = none <;>
    cases hd : (initDisplay env s).2 <;>
    cases hs : (initSurface env (initDisplay env s).1).2 <;>
    cases hc : (initContext env (initSurface env (initDisplay env s).1).1).2 <;>
    cases hm : env.makeCurrentOk <;>
    simp_all [prepareToRender]

theorem EglInv_prepareToRender (env : EglEnv) (s : NativeEngine) (h : EglInv s) :
    EglInv (prepareToRender env s).1 := by
  rcases prepareToRender_state_cases env s with
    heq | heq | ⟨hok, heq⟩ | ⟨hok, heq⟩ | ⟨hok, heq⟩ | ⟨hok, heq⟩
  · rw [heq]; exact h
  · rw [heq]; exact EglInv_initDisplay env s h
  · rw [heq]
    apply EglInv_of_display_ne
    rw [initSurface_display]
    exact initDisplay_ok_display env s hok
  · rw [heq]
    apply EglInv_of_display_ne
    rw [initContext_display, initSurface_display]
    exact initDisplay_ok_display env s hok
  · rw [heq]
    apply EglInv_of_display_ne
    rw [(loadShaders_handles env _).1, initContext_display, initSurface_display]
    exact initDisplay_ok_display env s hok
  · rw [heq]
    obtain ⟨l1, l2, l3⟩ := loadShaders_handles env
      (handleEglError env.makeCurrentErr
        (initContext env (initSurface env (initDisplay env s).1).1).1).1
    refine EglInv_congr _ _ l1 l2 l3 ?_
    apply EglInv_handleEglError
    apply EglInv_of_display_ne
    rw [initContext_display, initSurface_display]
    exact initDisplay_ok_display env s hok

/-- The state advance of a rendered frame (first-frame flag clear and the
frame counter bump), shared by the two swap outcomes of DoFrame. -/
def frameAdvance (s1 : NativeEngine) : NativeEngine :=
  let s2 := if s1.mIsFirstFrame then { s1 with mIsFirstFrame := false } else s1
  { s2 with nn := s2.nn + 1 }

theorem frameAdvance_handles (s : NativeEngine) :
    (frameAdvance s).mEglDisplay = s.mEglDisplay ∧
    (frameAdvance s).mEglSurface = s.mEglSurface ∧
    (frameAdvance s).mEglContext = s.mEglContext := by
  unfold frameAdvance
  split <;> simp

theorem doFrame_noResize (env : EglEnv) (s : NativeEngine)
    (hp : (prepareToRender env s).2.2 = true)
    (hcond : ¬(env.queryWidth ≠ (prepareToRender env s).1.mSurfWidth ∨
      env.queryHeight ≠ (prepareToRender env s).1.mSurfHeight)) :
    (doFrame env s).1 =
      (if env.swapOk then frameAdvance (prepareToRender env s).1
        else (handleEglError env.swapErr (frameAdvance (prepareToRender env s).1)).1) := by
  simp only [doFrame]
  rw [hp]
  simp only [Bool.not_true]
  rw [if_neg (by simp), if_neg hcond]
  cases hsw : env.swapOk <;> simp [hsw, frameAdvance]

theorem EglInv_doFrame (env : EglEnv) (s : NativeEngine) (h : EglInv s) :
    EglInv (doFrame env s).1 := by
  have hpre := EglInv_prepareToRender env s h
  by_cases hp : (prepareToRender env s).2.2 = true
  · by_cases hcond : env.queryWidth ≠ (prepareToRender env s).1.mSurfWidth ∨
        env.queryHeight ≠ (prepareToRender env s).1.mSurfHeight
    · rw [doFrame_resize env s hp hcond]
      exact EglInv_congr _ _ rfl rfl rfl hpre
    · rw [doFrame_noResize env s hp hcond]
      obtain ⟨a1, a2, a3⟩ := frameAdvance_handles (prepareToRender env s).1
      have hfa : EglInv (frameAdvance (prepareToRender env s).1) :=
        EglInv_congr _ _ a1 a2 a3 hpre
      cases env.swapOk
      · simpa using EglInv_handleEglError env.swapErr _ hfa
      · simpa using hfa
  · have hp2 : (prepareToRender env s).2.2 = false := by
      revert hp; cases (prepareToRender env s).2.2 <;> simp
    rw [doFrame_prepFail env s hp2]
    exact hpre

theorem handleCommand_handles (cmd : ℤ) (w : Bool) (s : NativeEngine) :
    (handleCommand cmd w s).1.mEglDisplay = s.mEglDisplay
    ∧ (handleCommand cmd w s).1.mEglContext = s.mEglContext
    ∧ (handleCommand cmd w s).1.mSurfWidth = s.mSurfWidth
    ∧ (handleCommand cmd w s).1.mSurfHeight = s.mSurfHeight
    ∧ ((handleCommand cmd w s).1.mEglSurface = s.mEglSurface ∨
        (handleCommand cmd w s).1.mEglSurface = none) := by
  obtain ⟨f1, f2, f3, _, _, _, f7, f8⟩ := killSurface_fields s
  obtain ⟨g1, g2, g3, g4, g5⟩ := killGLObjects_fields s
  unfold handleCommand
  by_cases h1 : cmd = APP_CMD_SAVE_STATE
  · simp [if_pos h1]
  simp only [if_neg h1]
  by_cases h2 : cmd = APP_CMD_INIT_WINDOW
  · simp only [if_pos h2]; cases w <;> simp
  simp only [if_neg h2]
  by_cases h3 : cmd = APP_CMD_TERM_WINDOW
  · simp only [if_pos h3]; exact ⟨f2, f3, f7, f8, Or.inr f1⟩
  simp only [if_neg h3]
  by_cases h4 : cmd = APP_CMD_GAINED_FOCUS
  · simp [if_pos h4]
  simp only [if_neg h4]
  by_cases h5 : cmd = APP_CMD_LOST_FOCUS
  · simp [if_pos h5]
  simp only [if_neg h5]
  by_cases h6 : cmd = APP_CMD_PAUSE
  · simp [if_pos h6]
  simp only [if_neg h6]
  by_cases h7 : cmd = APP_CMD_RESUME
  · simp [if_pos h7]
  simp only [if_neg h7]
  by_cases h8 : cmd = APP_CMD_STOP
  · simp [if_pos h8]
  simp only [if_neg h8]
  by_cases h9 : cmd = APP_CMD_START
  · simp [if_pos h9]
  simp only [if_neg h9]
  by_cases h10 : cmd = APP_CMD_WINDOW_RESIZED
  · simp [if_pos h10]
  simp only [if_neg h10]
  by_cases h11 : cmd = APP_CMD_CONFIG_CHANGED
  · simp [if_pos h11]
  simp only [if_neg h11]
  by_cases h12 : cmd = APP_CMD_LOW_MEMORY
  · simp only [if_pos h12]
    cases hw : s.mHasWindow
    · simp only [hw, Bool.not_false, if_pos rfl]
      exact ⟨g2, g3, g4, g5, Or.inl g1⟩
    · simp only [hw, Bool.not_true]
      rw [if_neg (by simp)]
      simp
  simp only [if_neg h12]
  simp

theorem EglInv_handleCommand (cmd : ℤ) (w : Bool) (s : NativeEngine)
    (h : EglInv s) : EglInv (handleCommand cmd w s).1 := by
  obtain ⟨hd, hc, _, _, hs⟩ := handleCommand_handles cmd w s
  intro hnone
  rw [hd] at hnone
  rcases hs with hs | hs
  · exact ⟨hs.trans (h hnone).1, hc.trans (h hnone).2⟩
  · exact ⟨hs, hc.trans (h hnone).2⟩

theorem EglInv_step (s : NativeEngine) (l : Label) (h : EglInv s) :
    EglInv (step s l) := by
  cases l with
  | cmd c w => exact EglInv_handleCommand c w s h
  | input b => exact EglInv_congr _ _ rfl rfl rfl h
  | frame env => exact EglInv_doFrame env s h
  | shutdown => exact EglInv_killContext s h

theorem EglInv_run (ls : List Label) : ∀ s : NativeEngine, EglInv s →
    EglInv (run s ls) := by
  induction ls with
  | nil => intro s h; exact h
  | cons l rest ih =>
      intro s h
      exact ih (step s l) (EglInv_step s l h)

/-- C8: in every state reachable from the freshly constructed engine, the
surface and context handles are null whenever the display handle is; and
KillDisplay destroys the context and the surface before terminating the
display, leaving all three handles null. -/
theorem c8_display_is_root :
    (∀ ls : List Label, EglInv (run NativeEngine.initial ls))
    ∧ (∀ s : NativeEngine, ∀ d u c, s.mEglDisplay = some d →
        s.mEglSurface = some u → s.mEglContext = some c →
        (killDisplay s).2 = [EglAct.makeCurrentNull, EglAct.destroyContext c,
          EglAct.makeCurrentNull, EglAct.destroySurface u, EglAct.terminateDisplay d]
        ∧ (killDisplay s).1.mEglDisplay = none
        ∧ (killDisplay s).1.mEglSurface = none
        ∧ (killDisplay s).1.mEglContext = none) := by
  constructor
  · intro ls
    apply EglInv_run
    intro _
    exact ⟨rfl, rfl⟩
  · intro s d u c hd hu hc
    obtain ⟨kd1, kd2, kd3, _⟩ := killDisplay_fields s
    obtain ⟨g1, g2, g3, _⟩ := killGLObjects_fields s
    refine ⟨?_, kd1, kd2, kd3⟩
    have hgc : (killGLObjects s).mEglContext = some c := g3.trans hc
    have hgs : (killGLObjects s).mEglSurface = some u := g1.trans hu
    have hgd : (killGLObjects s).mEglDisplay = some d := g2.trans hd
    simp [killDisplay, killContext, killSurface, hgc, hgs, hgd]

/-- Witness for C8 at the fully populated handle state. -/
theorem c8_display_is_root_witness :
    (killDisplay c2_sFull).2 = [EglAct.makeCurrentNull, EglAct.destroyContext 3,
      EglAct.makeCurrentNull, EglAct.destroySurface 2, EglAct.terminateDisplay 1]
    ∧ (killDisplay c2_sFull).1.mEglDisplay = none := by
  have h := c8_display_is_root.2 c2_sFull 1 2 3 rfl rfl rfl
  exact ⟨h.1, h.2.1⟩

theorem inUnit_fdiv_zero (x : F) : inUnit (fdiv x (F.fin 0)) = false := by
  cases x with
  | fin a =>
      simp only [fdiv, if_pos rfl]
      split_ifs <;> rfl
  | inf => rfl
  | ninf => rfl
  | nan => rfl

theorem intToF_zero : intToF 0 = F.fin 0 := by
  simp [intToF]

theorem moveLoop_emit_norm (mx my : F) (ps : List MotionPointer) :
    ∀ (i : ℕ) (ev : TouchScreenEvent) (t : List (ℤ × Position))
      (evE : TouchScreenEvent),
      TAct.emit evE ∈ (moveLoop mx my ps i ev t).2.2 →
      ∃ a b, evE.norm_pos = ⟨fdiv a mx, fdiv b my⟩ := by
  induction ps with
  | nil =>
      intro i ev t evE h
      simp [moveLoop] at h
  | cons p ps ih =>
      intro i ev t evE h
      simp only [moveLoop] at h
      rcases hf : findRecord t p.id with _ | pp <;> rw [hf] at h <;> simp at h
      · rcases h with rfl | h
        · exact ⟨p.x, p.y, rfl⟩
        · exact ih _ _ _ _ h
      · rcases h with rfl | h
        · exact ⟨p.x, p.y, rfl⟩
        · exact ih _ _ _ _ h

theorem cook_emit_norm (me : MotionEvent) (t : List (ℤ × Position))
    (ev : TouchScreenEvent) (pointerIndex : ℕ) (evE : TouchScreenEvent)
    (h : TAct.emit evE ∈ (cook me t ev pointerIndex).2) :
    ∃ a b, evE.norm_pos = ⟨fdiv a ev.max.x, fdiv b ev.max.y⟩ := by
  simp only [cook] at h
  by_cases hpi : pointerIndex ≠ GAMEACTIVITY_MAX_NUM_POINTERS_IN_MOTION_EVENT
  · rw [if_pos hpi] at h
    rcases hty : ev.type with _ | _ | _ <;> simp [hty] at h
    · rcases h with ⟨_, rfl⟩ | ⟨_, rfl⟩
      exact ⟨_, _, rfl⟩
    · rcases h with rfl
      exact ⟨_, _, rfl⟩
    · rcases h with rfl
      exact ⟨_, _, rfl⟩
  · rw [if_neg hpi] at h
    simp at h

theorem processMotionEvent_emit_norm (ev0 : TouchScreenEvent) (surfW surfH : ℤ)
    (me : MotionEvent) (t : List (ℤ × Position)) (evE : TouchScreenEvent)
    (h : TAct.emit evE ∈ (processMotionEvent ev0 surfW surfH me t).2) :
    ∃ a b, evE.norm_pos = ⟨fdiv a (intToF surfW), fdiv b (intToF surfH)⟩ := by
  simp only [processMotionEvent] at h
  by_cases hlen : 0 < me.pointers.length
  · rw [if_pos hlen] at h
    by_cases h1 : me.action &&& AMOTION_EVENT_ACTION_MASK = AMOTION_EVENT_ACTION_DOWN
    · rw [if_pos h1] at h
      exact cook_emit_norm _ _ _ _ _ h
    · rw [if_neg h1] at h
      by_cases h2 : me.action &&& AMOTION_EVENT_ACTION_MASK =
          AMOTION_EVENT_ACTION_POINTER_DOWN
      · rw [if_pos h2] at h
        exact cook_emit_norm _ _ _ _ _ h
      · rw [if_neg h2] at h
        by_cases h3 : me.action &&& AMOTION_EVENT_ACTION_MASK =
            AMOTION_EVENT_ACTION_UP
        · rw [if_pos h3] at h
          exact cook_emit_norm _ _ _ _ _ h
        · rw [if_neg h3] at h
          by_cases h4 : me.action &&& AMOTION_EVENT_ACTION_MASK =
              AMOTION_EVENT_ACTION_POINTER_UP
          · rw [if_pos h4] at h
            exact cook_emit_norm _ _ _ _ _ h
          · rw [if_neg h4] at h
            by_cases h5 : me.action &&& AMOTION_EVENT_ACTION_MASK =
                AMOTION_EVENT_ACTION_MOVE
            · rw [if_pos h5] at h
              exact moveLoop_emit_norm _ _ _ _ _ _ _ h
            · rw [if_neg h5] at h
              simp at h
  · rw [if_neg hlen] at h
    simp at h

theorem processInputEvents_emit_norm (surfW surfH : ℤ)
    (batch : List (TouchScreenEvent × MotionEvent)) :
    ∀ (t : List (ℤ × Position)) (evE : TouchScreenEvent),
      TAct.emit evE ∈ (processInputEvents surfW surfH batch t).2 →
      ∃ a b, evE.norm_pos = ⟨fdiv a (intToF surfW), fdiv b (intToF surfH)⟩ := by
  induction batch with
  | nil =>
      intro t evE h
      simp [processInputEvents] at h
  | cons em rest ih =>
      intro t evE h
      obtain ⟨e0, me⟩ := em
      simp only [processInputEvents, List.mem_append] at h
      rcases h with h | h
      · exact processMotionEvent_emit_norm e0 surfW surfH me t evE h
      · exact ih _ evE h

theorem frameAdvance_dims (s : NativeEngine) :
    (frameAdvance s).mSurfWidth = s.mSurfWidth ∧
    (frameAdvance s).mSurfHeight = s.mSurfHeight := by
  unfold frameAdvance
  split <;> simp

theorem doFrame_dims (env : EglEnv) (s : NativeEngine) :
    ((doFrame env s).1.mSurfWidth = s.mSurfWidth ∧
      (doFrame env s).1.mSurfHeight = s.mSurfHeight)
    ∨ ((doFrame env s).1.mSurfWidth = env.queryWidth ∧
      (doFrame env s).1.mSurfHeight = env.queryHeight) := by
  obtain ⟨w1, w2⟩ := prepareToRender_dims env s
  by_cases hp : (prepareToRender env s).2.2 = true
  · by_cases hcond : env.queryWidth ≠ (prepareToRender env s).1.mSurfWidth ∨
        env.queryHeight ≠ (prepareToRender env s).1.mSurfHeight
    · rw [doFrame_resize env s hp hcond]
      right
      exact ⟨rfl, rfl⟩
    · rw [doFrame_noResize env s hp hcond]
      obtain ⟨a1, a2⟩ := frameAdvance_dims (prepareToRender env s).1
      obtain ⟨b1, b2⟩ := handleEglError_dims env.swapErr
        (frameAdvance (prepareToRender env s).1)
      left
      cases env.swapOk <;> simp_all
  · have hp2 : (prepareToRender env s).2.2 = false := by
      revert hp; cases (prepareToRender env s).2.2 <;> simp
    rw [doFrame_prepFail env s hp2]
    left
    exact ⟨w1, w2⟩

theorem step_dims_nonframe (s : NativeEngine) (l : Label)
    (h : l.isFrame = false) :
    (step s l).mSurfWidth = s.mSurfWidth ∧
    (step s l).mSurfHeight = s.mSurfHeight := by
  cases l with
  | cmd c w =>
      obtain ⟨_, _, d1, d2, _⟩ := handleCommand_handles c w s
      exact ⟨d1, d2⟩
  | input b => exact ⟨rfl, rfl⟩
  | frame env => simp [Label.isFrame] at h
  | shutdown =>
      obtain ⟨_, _, _, d1, d2⟩ := killContext_fields s
      exact ⟨d1, d2⟩

theorem run_dims_nonframe (ls : List Label) :
    ∀ s : NativeEngine, (∀ l ∈ ls, l.isFrame = false) →
      (run s ls).mSurfWidth = s.mSurfWidth ∧
      (run s ls).mSurfHeight = s.mSurfHeight := by
  induction ls with
  | nil => intro s _; exact ⟨rfl, rfl⟩
  | cons l rest ih =>
      intro s hall
      obtain ⟨d1, d2⟩ := step_dims_nonframe s l (hall l (by simp))
      obtain ⟨e1, e2⟩ := ih (step s l) (fun x hx => hall x (by simp [hx]))
      exact ⟨e1.trans d1, e2.trans d2⟩

/-- C9: the cached surface dimensions start at zero and are written only
by a frame step (DoFrame's resize check); every touch event emitted while
they are still zero is normalized by an unguarded division by float zero,
so its normalized coordinates are IEEE special values outside [0,1]. -/
theorem c9_zero_division_before_first_frame :
    (NativeEngine.initial.mSurfWidth = 0 ∧ NativeEngine.initial.mSurfHeight = 0)
    ∧ (∀ s : NativeEngine, ∀ l : Label, l.isFrame = false →
        (step s l).mSurfWidth = s.mSurfWidth ∧ (step s l).mSurfHeight = s.mSurfHeight)
    ∧ (∀ ls : List Label, (∀ l ∈ ls, l.isFrame = false) →
        (run NativeEngine.initial ls).mSurfWidth = 0 ∧
        (run NativeEngine.initial ls).mSurfHeight = 0)
    ∧ (∀ s : NativeEngine, s.mSurfWidth = 0 → s.mSurfHeight = 0 →
        ∀ (batch : List (TouchScreenEvent × MotionEvent)) (evE : TouchScreenEvent),
          TAct.emit evE ∈ (processInput batch s).2 →
          inUnit evE.norm_pos.x = false ∧ inUnit evE.norm_pos.y = false) := by
  refine ⟨⟨rfl, rfl⟩, step_dims_nonframe, ?_, ?_⟩
  · intro ls hall
    exact run_dims_nonframe ls NativeEngine.initial hall
  · intro s hw hh batch evE h
    have h2 : TAct.emit evE ∈
        (processInputEvents s.mSurfWidth s.mSurfHeight batch s.previous_positions).2 := h
    obtain ⟨a, b, hab⟩ := processInputEvents_emit_norm s.mSurfWidth s.mSurfHeight
      batch s.previous_positions evE h2
    rw [hw, hh, intToF_zero] at hab
    rw [hab]
    exact ⟨inUnit_fdiv_zero a, inUnit_fdiv_zero b⟩

/-- Witness for C9: a single-pointer Move processed in the initial state
(dimensions 0 x 0) is emitted with norm_pos = (inf, inf), outside [0,1]. -/
theorem c9_zero_division_before_first_frame_witness :
    (run NativeEngine.initial [Label.cmd APP_CMD_INIT_WINDOW true]).mSurfWidth = 0
    ∧ inUnit ((TouchScreenEvent.mk TSEType.Move 7 ⟨F.fin 0, F.fin 0⟩
        ⟨F.fin 0, F.fin 0⟩ ⟨F.fin 1, F.fin 1⟩ ⟨F.inf, F.inf⟩ ⟨F.fin 9, F.fin 9⟩
        0).norm_pos.x) = false := by
  constructor
  · exact (c9_zero_division_before_first_frame.2.2.1
      [Label.cmd APP_CMD_INIT_WINDOW true] (by intro l hl; simp at hl; rw [hl]; rfl)).1
  · have h := c9_zero_division_before_first_frame.2.2.2 NativeEngine.initial rfl rfl
      [(ev0c, ⟨AMOTION_EVENT_ACTION_MOVE, [⟨7, F.fin 1, F.fin 1⟩]⟩)]
      (TouchScreenEvent.mk TSEType.Move 7 ⟨F.fin 0, F.fin 0⟩
        ⟨F.fin 0, F.fin 0⟩ ⟨F.fin 1, F.fin 1⟩ ⟨F.inf, F.inf⟩ ⟨F.fin 9, F.fin 9⟩ 0)
      (by
        have htr : (processInput
            [(ev0c, ⟨AMOTION_EVENT_ACTION_MOVE, [⟨7, F.fin 1, F.fin 1⟩]⟩)]
            NativeEngine.initial).2 =
          [TAct.logMoveMiss,
            TAct.emit (TouchScreenEvent.mk TSEType.Move 7 ⟨F.fin 0, F.fin 0⟩
              ⟨F.fin 0, F.fin 0⟩ ⟨F.fin 1, F.fin 1⟩ ⟨F.inf, F.inf⟩
              ⟨F.fin 9, F.fin 9⟩ 0)] := by rfl
        rw [htr]
        simp)
    exact h.1

theorem findRecord_none_forall (t : List (ℤ × Position)) (j : ℤ) :
    findRecord t j = none ↔ ∀ el ∈ t, el.1 ≠ j := by
  induction t with
  | nil => simp [findRecord]
  | cons hd tl ih =>
      obtain ⟨k, p⟩ := hd
      by_cases hk : k = j <;> simp [findRecord, hk, ih]

theorem findRecord_append_of_none (t1 t2 : List (ℤ × Position)) (j : ℤ)
    (h : findRecord t1 j = none) :
    findRecord (t1 ++ t2) j = findRecord t2 j := by
  induction t1 with
  | nil => simp
  | cons hd tl ih =>
      obtain ⟨k, p⟩ := hd
      by_cases hk : k = j
      · simp [findRecord, hk] at h
      · simp only [findRecord, if_neg hk] at h
        simp only [List.cons_append, findRecord, if_neg hk]
        exact ih h

theorem updateFirst_keys (t : List (ℤ × Position)) (id : ℤ) (q : Position) :
    (updateFirst t id q).map Prod.fst = t.map Prod.fst := by
  induction t with
  | nil => rfl
  | cons hd tl ih =>
      obtain ⟨k, p⟩ := hd
      by_cases hk : k = id <;> simp [updateFirst, hk, ih]

theorem findRecord_updateFirst_ne (t : List (ℤ × Position)) (id j : ℤ)
    (q : Position) (h : j ≠ id) :
    findRecord (updateFirst t id q) j = findRecord t j := by
  induction t with
  | nil => rfl
  | cons hd tl ih =>
      obtain ⟨k, p⟩ := hd
      by_cases hk : k = id
      · subst hk
        have hkj : ¬ k = j := fun hh => h hh.symm
        simp [updateFirst, findRecord, hkj]
      · by_cases hkj : k = j <;> simp [updateFirst, findRecord, hk, hkj, ih, h]

theorem findRecord_updateFirst_self (t : List (ℤ × Position)) (id : ℤ)
    (q : Position) (h : (findRecord t id).isSome = true) :
    findRecord (updateFirst t id q) id = some q := by
  induction t with
  | nil => simp [findRecord] at h
  | cons hd tl ih =>
      obtain ⟨k, p⟩ := hd
      by_cases hk : k = id
      · simp [updateFirst, findRecord, hk]
      · simp only [findRecord, if_neg hk] at h
        simp [updateFirst, findRecord, hk, ih h]

theorem moveLoop_keys (mx my : F) (ps : List MotionPointer) :
    ∀ (i : ℕ) (ev : TouchScreenEvent) (t : List (ℤ × Position)),
      ((moveLoop mx my ps i ev t).2.1).map Prod.fst = t.map Prod.fst := by
  induction ps with
  | nil => intro i ev t; rfl
  | cons p ps ih =>
      intro i ev t
      simp only [moveLoop]
      rcases hf : findRecord t p.id with _ | pp <;> simp only [hf] <;>
        simp [ih, updateFirst_keys]

theorem moveLoop_findRecord_skip (mx my : F) (ps : List MotionPointer) :
    ∀ (i : ℕ) (ev : TouchScreenEvent) (t : List (ℤ × Position)) (j : ℤ),
      (∀ q ∈ ps, q.id ≠ j) →
      findRecord ((moveLoop mx my ps i ev t).2.1) j = findRecord t j := by
  induction ps with
  | nil => intro i ev t j _; rfl
  | cons p ps ih =>
      intro i ev t j hall
      have hpj : p.id ≠ j := hall p (by simp)
      simp only [moveLoop]
      rcases hf : findRecord t p.id with _ | pp <;> simp only [hf]
      · exact ih (i + 1) _ t j (fun q hq => hall q (by simp [hq]))
      · rw [ih (i + 1) _ _ j (fun q hq => hall q (by simp [hq]))]
        exact findRecord_updateFirst_ne t p.id j _ (fun hh => hpj hh.symm)

theorem moveLoop_ev_type (mx my : F) (ps : List MotionPointer) :
    ∀ (i : ℕ) (ev : TouchScreenEvent) (t : List (ℤ × Position)),
      ((moveLoop mx my ps i ev t).1).type = ev.type := by
  induction ps with
  | nil => intro i ev t; rfl
  | cons p ps ih =>
      intro i ev t
      simp only [moveLoop]
      rcases hf : findRecord t p.id with _ | pp <;> simp only [hf] <;> exact ih _ _ _

theorem moveLoop_append (mx my : F) (as : List MotionPointer) :
    ∀ (bs : List MotionPointer) (i : ℕ) (ev : TouchScreenEvent)
      (t : List (ℤ × Position)),
      moveLoop mx my (as ++ bs) i ev t =
        ((moveLoop mx my bs (i + as.length) (moveLoop mx my as i ev t).1
            (moveLoop mx my as i ev t).2.1).1,
          (moveLoop mx my bs (i + as.length) (moveLoop mx my as i ev t).1
            (moveLoop mx my as i ev t).2.1).2.1,
          (moveLoop mx my as i ev t).2.2 ++
            (moveLoop mx my bs (i + as.length) (moveLoop mx my as i ev t).1
              (moveLoop mx my as i ev t).2.1).2.2) := by
  induction as with
  | nil =>
      intro bs i ev t
      simp [moveLoop]
  | cons a as ih =>
      intro bs i ev t
      have harith : i + 1 + as.length = i + (as.length + 1) := by omega
      simp only [List.cons_append, moveLoop, List.length_cons, List.append_eq]
      rcases hf : findRecord t a.id with _ | pp <;> simp only [hf] <;>
        (rw [ih, harith]; simp)

/-- The TouchScreenEvent that the cooking block dispatches (ev after all
field assignments), written out for statement purposes. -/
def cookEv (e0 : TouchScreenEvent) (surfW surfH : ℤ) (me : MotionEvent)
    (ty : TSEType) (pointerIndex : ℕ) : TouchScreenEvent :=
  let p := me.pointers.getD pointerIndex ⟨0, F.fin 0, F.fin 0⟩
  { type := ty
    id := p.id
    min := ⟨F.fin 0, F.fin 0⟩
    max := ⟨intToF surfW, intToF surfH⟩
    pos := ⟨p.x, p.y⟩
    norm_pos := ⟨fdiv p.x (intToF surfW), fdiv p.y (intToF surfH)⟩
    move_ndelta := e0.move_ndelta
    pointer_index := pointerIndex }

theorem processMotionEvent_move_eq (e0 : TouchScreenEvent) (surfW surfH : ℤ)
    (ps : List MotionPointer) (t : List (ℤ × Position)) (hne : 0 < ps.length) :
    processMotionEvent e0 surfW surfH ⟨AMOTION_EVENT_ACTION_MOVE, ps⟩ t =
      ((moveLoop (intToF surfW) (intToF surfH) ps 0
          { e0 with
            min := ⟨F.fin 0, F.fin 0⟩
            max := ⟨intToF surfW, intToF surfH⟩
            type := TSEType.Move } t).2.1,
        (moveLoop (intToF surfW) (intToF surfH) ps 0
          { e0 with
            min := ⟨F.fin 0, F.fin 0⟩
            max := ⟨intToF surfW, intToF surfH⟩
            type := TSEType.Move } t).2.2) := by
  simp only [processMotionEvent]
  rw [if_pos hne]
  have ha : AMOTION_EVENT_ACTION_MOVE &&& AMOTION_EVENT_ACTION_MASK =
      AMOTION_EVENT_ACTION_MOVE := by decide
  rw [ha, if_neg (by decide), if_neg (by decide), if_neg (by decide),
    if_neg (by decide), if_pos rfl]

theorem processMotionEvent_down_eq (e0 : TouchScreenEvent) (surfW surfH : ℤ)
    (ps : List MotionPointer) (t : List (ℤ × Position)) (hne : 0 < ps.length) :
    processMotionEvent e0 surfW surfH ⟨AMOTION_EVENT_ACTION_DOWN, ps⟩ t =
      (t ++ [((ps.getD 0 ⟨0, F.fin 0, F.fin 0⟩).id,
          ⟨fdiv (ps.getD 0 ⟨0, F.fin 0, F.fin 0⟩).x (intToF surfW),
            fdiv (ps.getD 0 ⟨0, F.fin 0, F.fin 0⟩).y (intToF surfH)⟩)],
        [TAct.addRecord (ps.getD 0 ⟨0, F.fin 0, F.fin 0⟩).id
            ⟨fdiv (ps.getD 0 ⟨0, F.fin 0, F.fin 0⟩).x (intToF surfW),
              fdiv (ps.getD 0 ⟨0, F.fin 0, F.fin 0⟩).y (intToF surfH)⟩,
          TAct.emit (cookEv e0 surfW surfH ⟨AMOTION_EVENT_ACTION_DOWN, ps⟩
            TSEType.Down 0)]) := by
  simp only [processMotionEvent]
  rw [if_pos hne]
  have ha : AMOTION_EVENT_ACTION_DOWN &&& AMOTION_EVENT_ACTION_MASK =
      AMOTION_EVENT_ACTION_DOWN := by decide
  rw [ha, if_pos rfl]
  simp only [cook, cookEv]
  rw [if_pos (by decide)]

theorem cook_up_eq (me : MotionEvent) (t : List (ℤ × Position))
    (ev : TouchScreenEvent) (pointerIndex : ℕ) (hty : ev.type = TSEType.Up)
    (hpi : pointerIndex ≠ GAMEACTIVITY_MAX_NUM_POINTERS_IN_MOTION_EVENT) :
    cook me t ev pointerIndex =
      (t.filter (fun el =>
          !(el.1 == (me.pointers.getD pointerIndex ⟨0, F.fin 0, F.fin 0⟩).id)),
        TAct.upRemove (me.pointers.getD pointerIndex ⟨0, F.fin 0, F.fin 0⟩).id
            (t.any fun el =>
              el.1 == (me.pointers.getD pointerIndex ⟨0, F.fin 0, F.fin 0⟩).id) ::
          ((if (t.any fun el =>
              el.1 == (me.pointers.getD pointerIndex ⟨0, F.fin 0, F.fin 0⟩).id)
            then [] else [TAct.logUpMiss]) ++
            [TAct.emit { ev with
              pointer_index := pointerIndex
              id := (me.pointers.getD pointerIndex ⟨0, F.fin 0, F.fin 0⟩).id
              pos := ⟨(me.pointers.getD pointerIndex ⟨0, F.fin 0, F.fin 0⟩).x,
                (me.pointers.getD pointerIndex ⟨0, F.fin 0, F.fin 0⟩).y⟩
              norm_pos := ⟨fdiv (me.pointers.getD pointerIndex
                  ⟨0, F.fin 0, F.fin 0⟩).x ev.max.x,
                fdiv (me.pointers.getD pointerIndex
                  ⟨0, F.fin 0, F.fin 0⟩).y ev.max.y⟩ }])) := by
  simp only [cook]
  rw [if_pos hpi]
  simp only [hty]

theorem processMotionEvent_up_eq (e0 : TouchScreenEvent) (surfW surfH : ℤ)
    (ps : List MotionPointer) (t : List (ℤ × Position)) (hne : 0 < ps.length) :
    processMotionEvent e0 surfW surfH ⟨AMOTION_EVENT_ACTION_UP, ps⟩ t =
      (t.filter (fun el => !(el.1 == (ps.getD 0 ⟨0, F.fin 0, F.fin 0⟩).id)),
        TAct.upRemove (ps.getD 0 ⟨0, F.fin 0, F.fin 0⟩).id
            (t.any fun el => el.1 == (ps.getD 0 ⟨0, F.fin 0, F.fin 0⟩).id) ::
          ((if (t.any fun el => el.1 == (ps.getD 0 ⟨0, F.fin 0, F.fin 0⟩).id)
            then [] else [TAct.logUpMiss]) ++
            [TAct.emit (cookEv e0 surfW surfH ⟨AMOTION_EVENT_ACTION_UP, ps⟩
              TSEType.Up 0)])) := by
  simp only [processMotionEvent]
  rw [if_pos hne]
  have ha : AMOTION_EVENT_ACTION_UP &&& AMOTION_EVENT_ACTION_MASK =
      AMOTION_EVENT_ACTION_UP := by decide
  rw [ha, if_neg (by decide), if_neg (by decide), if_pos rfl]
  rw [cook_up_eq _ _ _ _ rfl (by decide)]
  rfl

/-- C1: a Down registers the normalized down position, and a Move batch
containing a tracked pointer emits a Move event whose normalized delta is
the new normalized position minus the stored one (so the first Move after
Down is measured from the Down position), after which the stored position
is the new normalized position. -/
theorem c1_move_delta_from_stored :
    (∀ (e0 : TouchScreenEvent) (surfW surfH : ℤ) (t : List (ℤ × Position))
        (p : MotionPointer) (rest : List MotionPointer),
      findRecord t p.id = none →
      findRecord (processMotionEvent e0 surfW surfH
          ⟨AMOTION_EVENT_ACTION_DOWN, p :: rest⟩ t).1 p.id
        = some ⟨fdiv p.x (intToF surfW), fdiv p.y (intToF surfH)⟩)
    ∧ (∀ (e0 : TouchScreenEvent) (surfW surfH : ℤ) (t : List (ℤ × Position))
        (ps1 ps2 : List MotionPointer) (p : MotionPointer) (prev : Position),
      findRecord t p.id = some prev →
      (∀ q ∈ ps1, q.id ≠ p.id) → (∀ q ∈ ps2, q.id ≠ p.id) →
      (∃ ev : TouchScreenEvent,
          TAct.emit ev ∈ (processMotionEvent e0 surfW surfH
            ⟨AMOTION_EVENT_ACTION_MOVE, ps1 ++ p :: ps2⟩ t).2
          ∧ ev.type = TSEType.Move ∧ ev.id = p.id
          ∧ ev.norm_pos = ⟨fdiv p.x (intToF surfW), fdiv p.y (intToF surfH)⟩
          ∧ ev.move_ndelta = ⟨fsub (fdiv p.x (intToF surfW)) prev.x,
              fsub (fdiv p.y (intToF surfH)) prev.y⟩)
        ∧ findRecord (processMotionEvent e0 surfW surfH
            ⟨AMOTION_EVENT_ACTION_MOVE, ps1 ++ p :: ps2⟩ t).1 p.id
          = some ⟨fdiv p.x (intToF surfW), fdiv p.y (intToF surfH)⟩) := by
  constructor
  · intro e0 surfW surfH t p rest hnone
    rw [processMotionEvent_down_eq e0 surfW surfH (p :: rest) t (by simp)]
    simp only [List.getD_cons_zero]
    rw [findRecord_append_of_none t _ p.id hnone]
    simp [findRecord]
  · intro e0 surfW surfH t ps1 ps2 p prev hfind h1 h2
    rw [processMotionEvent_move_eq e0 surfW surfH (ps1 ++ p :: ps2) t (by simp)]
    rw [moveLoop_append]
    have hA : findRecord ((moveLoop (intToF surfW) (intToF surfH) ps1 0
        { e0 with
          min := ⟨F.fin 0, F.fin 0⟩
          max := ⟨intToF surfW, intToF surfH⟩
          type := TSEType.Move } t).2.1) p.id = some prev := by
      rw [moveLoop_findRecord_skip _ _ ps1 0 _ t p.id h1]
      exact hfind
    simp only [moveLoop]
    rw [hA]
    constructor
    · refine ⟨{ (moveLoop (intToF surfW) (intToF surfH) ps1 0
          { e0 with
            min := ⟨F.fin 0, F.fin 0⟩
            max := ⟨intToF surfW, intToF surfH⟩
            type := TSEType.Move } t).1 with
          pointer_index := 0 + ps1.length
          id := p.id
          pos := ⟨p.x, p.y⟩
          norm_pos := ⟨fdiv p.x (intToF surfW), fdiv p.y (intToF surfH)⟩
          move_ndelta := ⟨fsub (fdiv p.x (intToF surfW)) prev.x,
            fsub (fdiv p.y (intToF surfH)) prev.y⟩ }, ?_, ?_, rfl, rfl, rfl⟩
      · simp
      · exact moveLoop_ev_type (intToF surfW) (intToF surfH) ps1 0 _ t
    · rw [moveLoop_findRecord_skip _ _ ps2 _ _ _ p.id h2]
      apply findRecord_updateFirst_self
      rw [hA]
      rfl

/-- Witness for C1: Down at (0,0) then a one-pointer Move to raw (1,1)
with surface 2 x 2 emits delta (1/2, 1/2) and stores (1/2, 1/2). -/
theorem c1_move_delta_from_stored_witness :
    (∃ ev : TouchScreenEvent,
      TAct.emit ev ∈ (processMotionEvent ev0c 2 2
        ⟨AMOTION_EVENT_ACTION_MOVE, [⟨1, F.fin 1, F.fin 1⟩]⟩
        [(1, ⟨F.fin 0, F.fin 0⟩)]).2
      ∧ ev.type = TSEType.Move ∧ ev.id = 1
      ∧ ev.norm_pos = ⟨fdiv (F.fin 1) (intToF 2), fdiv (F.fin 1) (intToF 2)⟩
      ∧ ev.move_ndelta = ⟨fsub (fdiv (F.fin 1) (intToF 2)) (F.fin 0),
          fsub (fdiv (F.fin 1) (intToF 2)) (F.fin 0)⟩)
    ∧ findRecord (processMotionEvent ev0c 2 2
        ⟨AMOTION_EVENT_ACTION_MOVE, [⟨1, F.fin 1, F.fin 1⟩]⟩
        [(1, ⟨F.fin 0, F.fin 0⟩)]).1 1
      = some ⟨fdiv (F.fin 1) (intToF 2), fdiv (F.fin 1) (intToF 2)⟩ := by
  exact c1_move_delta_from_stored.2 ev0c 2 2 [(1, ⟨F.fin 0, F.fin 0⟩)] [] []
    ⟨1, F.fin 1, F.fin 1⟩ ⟨F.fin 0, F.fin 0⟩ rfl (by simp) (by simp)

theorem cook_down_eq (me : MotionEvent) (t : List (ℤ × Position))
    (ev : TouchScreenEvent) (pointerIndex : ℕ) (hty : ev.type = TSEType.Down)
    (hpi : pointerIndex ≠ GAMEACTIVITY_MAX_NUM_POINTERS_IN_MOTION_EVENT) :
    cook me t ev pointerIndex =
      (t ++ [((me.pointers.getD pointerIndex ⟨0, F.fin 0, F.fin 0⟩).id,
          ⟨fdiv (me.pointers.getD pointerIndex ⟨0, F.fin 0, F.fin 0⟩).x ev.max.x,
            fdiv (me.pointers.getD pointerIndex ⟨0, F.fin 0, F.fin 0⟩).y ev.max.y⟩)],
        [TAct.addRecord (me.pointers.getD pointerIndex ⟨0, F.fin 0, F.fin 0⟩).id
            ⟨fdiv (me.pointers.getD pointerIndex ⟨0, F.fin 0, F.fin 0⟩).x ev.max.x,
              fdiv (me.pointers.getD pointerIndex ⟨0, F.fin 0, F.fin 0⟩).y ev.max.y⟩,
          TAct.emit { ev with
            pointer_index := pointerIndex
            id := (me.pointers.getD pointerIndex ⟨0, F.fin 0, F.fin 0⟩).id
            pos := ⟨(me.pointers.getD pointerIndex ⟨0, F.fin 0, F.fin 0⟩).x,
              (me.pointers.getD pointerIndex ⟨0, F.fin 0, F.fin 0⟩).y⟩
            norm_pos := ⟨fdiv (me.pointers.getD pointerIndex
                ⟨0, F.fin 0, F.fin 0⟩).x ev.max.x,
              fdiv (me.pointers.getD pointerIndex
                ⟨0, F.fin 0, F.fin 0⟩).y ev.max.y⟩ }]) := by
  simp only [cook]
  rw [if_pos hpi]
  simp only [hty]

theorem cook_move_eq (me : MotionEvent) (t : List (ℤ × Position))
    (ev : TouchScreenEvent) (pointerIndex : ℕ) (hty : ev.type = TSEType.Move)
    (hpi : pointerIndex ≠ GAMEACTIVITY_MAX_NUM_POINTERS_IN_MOTION_EVENT) :
    cook me t ev pointerIndex =
      (t, [TAct.emit { ev with
        pointer_index := pointerIndex
        id := (me.pointers.getD pointerIndex ⟨0, F.fin 0, F.fin 0⟩).id
        pos := ⟨(me.pointers.getD pointerIndex ⟨0, F.fin 0, F.fin 0⟩).x,
          (me.pointers.getD pointerIndex ⟨0, F.fin 0, F.fin 0⟩).y⟩
        norm_pos := ⟨fdiv (me.pointers.getD pointerIndex
            ⟨0, F.fin 0, F.fin 0⟩).x ev.max.x,
          fdiv (me.pointers.getD pointerIndex
            ⟨0, F.fin 0, F.fin 0⟩).y ev.max.y⟩ }]) := by
  simp only [cook]
  rw [if_pos hpi]
  simp only [hty]

theorem cook_nodup (me : MotionEvent) (t : List (ℤ × Position))
    (ev : TouchScreenEvent) (pointerIndex : ℕ) (hnd : NodupKeys t)
    (hdown : ev.type = TSEType.Down →
      pointerIndex ≠ GAMEACTIVITY_MAX_NUM_POINTERS_IN_MOTION_EVENT →
      findRecord t (me.pointers.getD pointerIndex ⟨0, F.fin 0, F.fin 0⟩).id = none) :
    NodupKeys (cook me t ev pointerIndex).1 := by
  by_cases hpi : pointerIndex ≠ GAMEACTIVITY_MAX_NUM_POINTERS_IN_MOTION_EVENT
  · rcases hty : ev.type with _ | _ | _
    · rw [cook_up_eq me t ev pointerIndex hty hpi]
      have hsub : ((t.filter (fun el =>
          !(el.1 == (me.pointers.getD pointerIndex ⟨0, F.fin 0, F.fin 0⟩).id))).map
            Prod.fst).Sublist (t.map Prod.fst) :=
        (List.filter_sublist t).map Prod.fst
      exact List.Nodup.sublist hsub hnd
    · rw [cook_down_eq me t ev pointerIndex hty hpi]
      have hnone := hdown hty hpi
      have hnotin : (me.pointers.getD pointerIndex ⟨0, F.fin 0, F.fin 0⟩).id ∉
          t.map Prod.fst := by
        intro hin
        obtain ⟨el, hel, helq⟩ := List.mem_map.mp hin
        exact (findRecord_none_forall t _).mp hnone el hel helq
      simp only [NodupKeys, List.map_append, List.map_cons, List.map_nil]
      rw [List.nodup_append]
      exact ⟨hnd, List.nodup_singleton _, by simpa using hnotin⟩
    · rw [cook_move_eq me t ev pointerIndex hty hpi]
      exact hnd
  · simp only [cook]
    rw [if_neg hpi]
    exact hnd

theorem processMotionEvent_nodup (e0 : TouchScreenEvent) (surfW surfH : ℤ)
    (me : MotionEvent) (t : List (ℤ × Position)) (hnd : NodupKeys t)
    (hfresh : ∀ j, cookedDownId me = some j → findRecord t j = none) :
    NodupKeys (processMotionEvent e0 surfW surfH me t).1 := by
  simp only [processMotionEvent]
  by_cases hlen : 0 < me.pointers.length
  · rw [if_pos hlen]
    by_cases h1 : me.action &&& AMOTION_EVENT_ACTION_MASK = AMOTION_EVENT_ACTION_DOWN
    · rw [if_pos h1]
      refine cook_nodup _ _ _ _ hnd (fun _ _ => ?_)
      refine hfresh _ ?_
      simp only [cookedDownId]
      rw [if_pos hlen, if_pos h1]
    · rw [if_neg h1]
      by_cases h2 : me.action &&& AMOTION_EVENT_ACTION_MASK =
          AMOTION_EVENT_ACTION_POINTER_DOWN
      · rw [if_pos h2]
        refine cook_nodup _ _ _ _ hnd (fun _ hpi => ?_)
        refine hfresh _ ?_
        simp only [cookedDownId]
        rw [if_pos hlen, if_neg h1, if_pos h2, if_pos hpi]
      · rw [if_neg h2]
        by_cases h3 : me.action &&& AMOTION_EVENT_ACTION_MASK =
            AMOTION_EVENT_ACTION_UP
        · rw [if_pos h3]
          exact cook_nodup _ _ _ _ hnd (fun hty _ => by cases hty)
        · rw [if_neg h3]
          by_cases h4 : me.action &&& AMOTION_EVENT_ACTION_MASK =
              AMOTION_EVENT_ACTION_POINTER_UP
          · rw [if_pos h4]
            exact cook_nodup _ _ _ _ hnd (fun hty _ => by cases hty)
          · rw [if_neg h4]
            by_cases h5 : me.action &&& AMOTION_EVENT_ACTION_MASK =
                AMOTION_EVENT_ACTION_MOVE
            · rw [if_pos h5]
              show NodupKeys (moveLoop _ _ _ _ _ _).2.1
              unfold NodupKeys
              rw [moveLoop_keys]
              exact hnd
            · rw [if_neg h5]
              exact hnd
  · rw [if_neg hlen]
    exact hnd

theorem processInputEvents_nodup (surfW surfH : ℤ)
    (batch : List (TouchScreenEvent × MotionEvent)) :
    ∀ t : List (ℤ × Position), NodupKeys t → FreshDowns surfW surfH t batch →
      NodupKeys (processInputEvents surfW surfH batch t).1 := by
  induction batch with
  | nil => intro t hnd _; exact hnd
  | cons em rest ih =>
      intro t hnd hfresh
      obtain ⟨e0, me⟩ := em
      obtain ⟨hf1, hf2⟩ := hfresh
      exact ih _ (processMotionEvent_nodup e0 surfW surfH me t hnd hf1) hf2

/-- Counterexample to C3: processing two Down events with the same pointer
id from the empty tracker leaves two records keyed 1 — the Down branch
pushes unconditionally, with no already-tracked check. -/
theorem c3_duplicate_down_counterexample :
    ¬ NodupKeys (processInputEvents 2 2
      [(ev0c, ⟨AMOTION_EVENT_ACTION_DOWN, [⟨1, F.fin 1, F.fin 1⟩]⟩),
        (ev0c, ⟨AMOTION_EVENT_ACTION_DOWN, [⟨1, F.fin 1, F.fin 1⟩]⟩)] []).1 := by
  have h : ((processInputEvents 2 2
      [(ev0c, ⟨AMOTION_EVENT_ACTION_DOWN, [⟨1, F.fin 1, F.fin 1⟩]⟩),
        (ev0c, ⟨AMOTION_EVENT_ACTION_DOWN, [⟨1, F.fin 1, F.fin 1⟩]⟩)] []).1).map
      Prod.fst = [1, 1] := by rfl
  unfold NodupKeys
  rw [h]
  decide

/-- C3 (amended): the tracker keeps at most one record per id across any
processed sequence in which every cooked Down carries an id that is not
currently tracked; the code itself never checks, so a duplicate Down
violates the invariant (see the counterexample). -/
theorem c3_amended_fresh_downs_keep_nodup (surfW surfH : ℤ)
    (batch : List (TouchScreenEvent × MotionEvent))
    (hfresh : FreshDowns surfW surfH [] batch) :
    NodupKeys (processInputEvents surfW surfH batch []).1 := by
  exact processInputEvents_nodup surfW surfH batch [] (by simp [NodupKeys]) hfresh

/-- Witness for the amended C3: two fresh Downs (ids 1 and 2). -/
theorem c3_amended_fresh_downs_keep_nodup_witness :
    NodupKeys (processInputEvents 2 2
      [(ev0c, ⟨AMOTION_EVENT_ACTION_DOWN, [⟨1, F.fin 1, F.fin 1⟩]⟩),
        (ev0c, ⟨AMOTION_EVENT_ACTION_DOWN, [⟨2, F.fin 1, F.fin 1⟩]⟩)] []).1 := by
  refine c3_amended_fresh_downs_keep_nodup 2 2 _ ⟨?_, ?_, trivial⟩
  · intro j hj
    rfl
  · intro j hj
    have hcd : cookedDownId ⟨AMOTION_EVENT_ACTION_DOWN, [⟨2, F.fin 1, F.fin 1⟩]⟩
        = some 2 := by rfl
    rw [hcd] at hj
    injection hj with hj
    subst hj
    rfl

theorem length_le_filter_remove_add_one (j : ℤ) (t : List (ℤ × Position)) :
    NodupKeys t → t.length ≤ (t.filter (fun el => !(el.1 == j))).length + 1 := by
  induction t with
  | nil => intro _; simp
  | cons hd tl ih =>
      obtain ⟨k, p⟩ := hd
      intro hnd
      have hnd2 : k ∉ tl.map Prod.fst ∧ NodupKeys tl := by
        simpa [NodupKeys] using hnd
      by_cases hk : k = j
      · subst hk
        have hall : tl.filter (fun el => !(el.1 == k)) = tl := by
          apply List.filter_eq_self.mpr
          intro el hel
          have : el.1 ≠ k := by
            intro he
            exact hnd2.1 (List.mem_map.mpr ⟨el, hel, he⟩)
          simp [this]
        simp [List.filter_cons, hall]
      · have := ih hnd2.2
        simp only [List.filter_cons]
        have hkj : (!(k == j)) = true := by simp [hk]
        rw [if_pos hkj]
        simpa using Nat.succ_le_succ this

theorem filter_remove_eq_self_of_none (j : ℤ) (t : List (ℤ × Position))
    (h : findRecord t j = none) : t.filter (fun el => !(el.1 == j)) = t := by
  apply List.filter_eq_self.mpr
  intro el hel
  simp [(findRecord_none_forall t j).mp h el hel]

/-- Counterexample to C4: with two records for id 1 in the tracker (a
state the unchecked Down path can create), a single Up for id 1 removes
both — remove_if erases every match, not at most one. -/
theorem c4_up_removes_two_counterexample :
    (processMotionEvent ev0c 2 2 ⟨AMOTION_EVENT_ACTION_UP, [⟨1, F.fin 1, F.fin 1⟩]⟩
        [(1, ⟨F.fin 0, F.fin 0⟩), (1, ⟨F.fin 5, F.fin 5⟩)]).1 = []
    ∧ ¬ (([(1, (⟨F.fin 0, F.fin 0⟩ : Position)), (1, ⟨F.fin 5, F.fin 5⟩)] :
        List (ℤ × Position)).length ≤
      (processMotionEvent ev0c 2 2 ⟨AMOTION_EVENT_ACTION_UP, [⟨1, F.fin 1, F.fin 1⟩]⟩
        [(1, ⟨F.fin 0, F.fin 0⟩), (1, ⟨F.fin 5, F.fin 5⟩)]).1.length + 1) := by
  have h : (processMotionEvent ev0c 2 2
      ⟨AMOTION_EVENT_ACTION_UP, [⟨1, F.fin 1, F.fin 1⟩]⟩
      [(1, ⟨F.fin 0, F.fin 0⟩), (1, ⟨F.fin 5, F.fin 5⟩)]).1 = [] := by rfl
  rw [h]
  exact ⟨rfl, by decide⟩

/-- C4 (amended): an Up removes exactly the records whose id matches the
cooked id — all of them; that is at most one when the tracker has no
duplicate keys; an Up whose id matches nothing leaves the tracker
unchanged. -/
theorem c4_amended_up_removes_matching (e0 : TouchScreenEvent)
    (surfW surfH : ℤ) (ps : List MotionPointer) (t : List (ℤ × Position))
    (hne : 0 < ps.length) :
    ((processMotionEvent e0 surfW surfH ⟨AMOTION_EVENT_ACTION_UP, ps⟩ t).1
        = t.filter (fun el => !(el.1 == (ps.getD 0 ⟨0, F.fin 0, F.fin 0⟩).id)))
    ∧ (processMotionEvent e0 surfW surfH ⟨AMOTION_EVENT_ACTION_UP, ps⟩ t).1.length
        ≤ t.length
    ∧ (NodupKeys t → t.length ≤
        (processMotionEvent e0 surfW surfH ⟨AMOTION_EVENT_ACTION_UP, ps⟩ t).1.length + 1)
    ∧ (findRecord t (ps.getD 0 ⟨0, F.fin 0, F.fin 0⟩).id = none →
        (processMotionEvent e0 surfW surfH ⟨AMOTION_EVENT_ACTION_UP, ps⟩ t).1 = t) := by
  rw [processMotionEvent_up_eq e0 surfW surfH ps t hne]
  refine ⟨rfl, List.length_filter_le _ t, ?_, ?_⟩
  · exact length_le_filter_remove_add_one _ t
  · exact filter_remove_eq_self_of_none _ t

/-- Witness for the amended C4. -/
theorem c4_amended_up_removes_matching_witness :
    (processMotionEvent ev0c 2 2 ⟨AMOTION_EVENT_ACTION_UP, [⟨3, F.fin 1, F.fin 1⟩]⟩
        [(1, ⟨F.fin 0, F.fin 0⟩)]).1 = [(1, ⟨F.fin 0, F.fin 0⟩)]
    ∧ [((1 : ℤ), (⟨F.fin 0, F.fin 0⟩ : Position))].length ≤
      (processMotionEvent ev0c 2 2 ⟨AMOTION_EVENT_ACTION_UP, [⟨3, F.fin 1, F.fin 1⟩]⟩
        [(1, ⟨F.fin 0, F.fin 0⟩)]).1.length + 1 := by
  have h := c4_amended_up_removes_matching ev0c 2 2 [⟨3, F.fin 1, F.fin 1⟩]
    [(1, ⟨F.fin 0, F.fin 0⟩)] (by simp)
  exact ⟨h.2.2.2 rfl, h.2.2.1 (by simp [NodupKeys])⟩

/-- Counterexample to C5: a Move for untracked id 7 logs the miss but the
callback is still invoked — a Move TouchScreenEvent is emitted, carrying
the stale move_ndelta from the uninitialized stack value (here (9,9)). -/
theorem c5_untracked_move_still_emitted_counterexample :
    (processMotionEvent ev0c 2 2
        ⟨AMOTION_EVENT_ACTION_MOVE, [⟨7, F.fin 1, F.fin 1⟩]⟩ []).2 =
      [TAct.logMoveMiss,
        TAct.emit (cookEv ev0c 2 2 ⟨AMOTION_EVENT_ACTION_MOVE, [⟨7, F.fin 1, F.fin 1⟩]⟩
          TSEType.Move 0)]
    ∧ (cookEv ev0c 2 2 ⟨AMOTION_EVENT_ACTION_MOVE, [⟨7, F.fin 1, F.fin 1⟩]⟩
        TSEType.Move 0).type = TSEType.Move
    ∧ (cookEv ev0c 2 2 ⟨AMOTION_EVENT_ACTION_MOVE, [⟨7, F.fin 1, F.fin 1⟩]⟩
        TSEType.Move 0).id = 7
    ∧ (cookEv ev0c 2 2 ⟨AMOTION_EVENT_ACTION_MOVE, [⟨7, F.fin 1, F.fin 1⟩]⟩
        TSEType.Move 0).move_ndelta = ⟨F.fin 9, F.fin 9⟩ := by
  exact ⟨rfl, rfl, rfl, rfl⟩

/-- C5 (amended): when a Move-batch pointer has no stored record, the
miss is logged and no delta is computed or stored — the tracker passes
through unchanged for that pointer — but the Move event is still emitted,
with move_ndelta left at whatever the threaded event already held. -/
theorem c5_amended_move_miss_emits_stale_delta (mx my : F) (p : MotionPointer)
    (ps : List MotionPointer) (i : ℕ) (ev : TouchScreenEvent)
    (t : List (ℤ × Position)) (h : findRecord t p.id = none) :
    ∃ ev1 : TouchScreenEvent,
      (moveLoop mx my (p :: ps) i ev t).2.2 =
        TAct.logMoveMiss :: TAct.emit ev1 :: (moveLoop mx my ps (i + 1) ev1 t).2.2
      ∧ ev1.move_ndelta = ev.move_ndelta
      ∧ ev1.id = p.id ∧ ev1.type = ev.type
      ∧ (moveLoop mx my (p :: ps) i ev t).2.1 = (moveLoop mx my ps (i + 1) ev1 t).2.1 := by
  refine ⟨{ ev with
      pointer_index := i
      id := p.id
      pos := ⟨p.x, p.y⟩
      norm_pos := ⟨fdiv p.x mx, fdiv p.y my⟩ }, ?_, rfl, rfl, rfl, ?_⟩ <;>
    simp [moveLoop, h]

/-- Witness for the amended C5. -/
theorem c5_amended_move_miss_emits_stale_delta_witness :
    ∃ ev1 : TouchScreenEvent,
      (moveLoop (F.fin 2) (F.fin 2) [⟨7, F.fin 1, F.fin 1⟩] 0 ev0c []).2.2 =
        TAct.logMoveMiss :: TAct.emit ev1 ::
          (moveLoop (F.fin 2) (F.fin 2) [] 1 ev1 []).2.2
      ∧ ev1.move_ndelta = ev0c.move_ndelta
      ∧ ev1.id = 7 ∧ ev1.type = ev0c.type
      ∧ (moveLoop (F.fin 2) (F.fin 2) [⟨7, F.fin 1, F.fin 1⟩] 0 ev0c []).2.1 =
        (moveLoop (F.fin 2) (F.fin 2) [] 1 ev1 []).2.1 := by
  exact c5_amended_move_miss_emits_stale_delta (F.fin 2) (F.fin 2)
    ⟨7, F.fin 1, F.fin 1⟩ [] 0 ev0c [] rfl

/-- Counterexample to C6: for an Up with a matching record, the trace
starts with the removal and ends with the emission — the record is removed
before the event reaches the callback, not after. -/
theorem c6_remove_precedes_emit_counterexample :
    (processMotionEvent ev0c 2 2 ⟨AMOTION_EVENT_ACTION_UP, [⟨1, F.fin 1, F.fin 1⟩]⟩
        [(1, ⟨F.fin 0, F.fin 0⟩)]).2 =
      [TAct.upRemove 1 true,
        TAct.emit (cookEv ev0c 2 2 ⟨AMOTION_EVENT_ACTION_UP, [⟨1, F.fin 1, F.fin 1⟩]⟩
          TSEType.Up 0)] := by
  rfl

/-- C6 (amended): processing an Up runs remove_if on the tracker first and
dispatches the TouchScreenEvent afterwards: the trace is the removal,
then possibly the miss log, then the emission last. -/
theorem c6_amended_remove_then_emit (me : MotionEvent) (t : List (ℤ × Position))
    (ev : TouchScreenEvent) (pointerIndex : ℕ) (hty : ev.type = TSEType.Up)
    (hpi : pointerIndex ≠ GAMEACTIVITY_MAX_NUM_POINTERS_IN_MOTION_EVENT) :
    ∃ (fnd : Bool) (ev2 : TouchScreenEvent) (mid : List TAct),
      (cook me t ev pointerIndex).2 =
        TAct.upRemove ev2.id fnd :: mid ++ [TAct.emit ev2]
      ∧ ev2.type = TSEType.Up
      ∧ (cook me t ev pointerIndex).1 = t.filter (fun el => !(el.1 == ev2.id)) := by
  rw [cook_up_eq me t ev pointerIndex hty hpi]
  refine ⟨t.any fun el => el.1 == (me.pointers.getD pointerIndex ⟨0, F.fin 0, F.fin 0⟩).id,
    { ev with
      pointer_index := pointerIndex
      id := (me.pointers.getD pointerIndex ⟨0, F.fin 0, F.fin 0⟩).id
      pos := ⟨(me.pointers.getD pointerIndex ⟨0, F.fin 0, F.fin 0⟩).x,
        (me.pointers.getD pointerIndex ⟨0, F.fin 0, F.fin 0⟩).y⟩
      norm_pos := ⟨fdiv (me.pointers.getD pointerIndex ⟨0, F.fin 0, F.fin 0⟩).x ev.max.x,
        fdiv (me.pointers.getD pointerIndex ⟨0, F.fin 0, F.fin 0⟩).y ev.max.y⟩ },
    (if (t.any fun el => el.1 == (me.pointers.getD pointerIndex ⟨0, F.fin 0, F.fin 0⟩).id)
      then [] else [TAct.logUpMiss]), ?_, hty, ?_⟩
  · simp
  · simp

/-- Witness for the amended C6. -/
theorem c6_amended_remove_then_emit_witness :
    ∃ (fnd : Bool) (ev2 : TouchScreenEvent) (mid : List TAct),
      (cook ⟨AMOTION_EVENT_ACTION_UP, [⟨1, F.fin 1, F.fin 1⟩]⟩
          [((1 : ℤ), (⟨F.fin 0, F.fin 0⟩ : Position))]
          { ev0c with type := TSEType.Up } 0).2 =
        TAct.upRemove ev2.id fnd :: mid ++ [TAct.emit ev2]
      ∧ ev2.type = TSEType.Up
      ∧ (cook ⟨AMOTION_EVENT_ACTION_UP, [⟨1, F.fin 1, F.fin 1⟩]⟩
          [((1 : ℤ), (⟨F.fin 0, F.fin 0⟩ : Position))]
          { ev0c with type := TSEType.Up } 0).1 =
        [((1 : ℤ), (⟨F.fin 0, F.fin 0⟩ : Position))].filter
          (fun el => !(el.1 == ev2.id)) := by
  exact c6_amended_remove_then_emit _ _ _ 0 rfl (by decide)
